import Mathlib

/-!
# Campaign dispatch of the WhatsApp campaign application

A shallow embedding of `backend/models/Campaign.js` and of the route handlers of
`backend/routes/campaigns.js` (`POST /` and `POST /:id/send`).

The handlers are asynchronous JavaScript working on a document store and on a remote
gateway.  Both are passed explicitly: the store is a list of campaign documents, and the
behaviour of everything the handler cannot control (the answer of the gateway to each call,
the clock, faults of the store) is an `Env` of oracles.  The handler returns its HTTP
response together with the store it leaves and the trace of what it did.
-/

namespace WhatsCampaigns

/-! ## Data model (`backend/models/Campaign.js`, `backend/models/User.js`) -/

/-- The `status` enum of `campaignSchema`. -/
inductive Status where
  | draft
  | scheduled
  | running
  | completed
  | failed
deriving DecidableEq, Repr

/-- An element of `campaignSchema.recipients`: three fields, none of them required, so each
may be absent (`undefined`). -/
structure Recipient where
  phone : Option String
  name : Option String
  isGroup : Option Bool
deriving DecidableEq, Repr

/-- An element of `campaignSchema.results`, the ledger.  `sentAt` is a time stamp in
milliseconds, `error` is absent on the entries pushed by the success branch. -/
structure ResultEntry where
  recipient : Option String
  status : String
  sentAt : Nat
  error : Option String
deriving DecidableEq, Repr

/-- A campaign document.  `name` and `message` are `required: true` in the schema, so a
document in which one of them is absent or empty does not pass validation on `save`.
The counters are the `Number` fields that start at `0` and are only ever incremented; `delay`
is a `Number` of milliseconds, held as an integer (exact for whole numbers below `2^53`).
`scheduledAt` and the time stamps of the document are never
read or written by the handlers modelled here and are left out. -/
structure Campaign where
  id : Nat
  userId : Nat
  name : Option String
  message : Option String
  recipients : List Recipient
  status : Status
  results : List ResultEntry
  totalRecipients : Nat
  successCount : Nat
  failureCount : Nat
  delay : Int
deriving DecidableEq, Repr

/-- The fields of `req.user` the campaign routes read. -/
structure User where
  id : Nat
  sessionName : Option String
  whatsappToken : Option String
deriving DecidableEq, Repr

/-- The collection of campaign documents. -/
abbrev Store := List Campaign

/-! ## The remote gateway and the environment -/

/-- The `axios.post` call of the send loop: URL, `Authorization` header and JSON body. -/
structure GatewayRequest where
  url : String
  authorization : String
  phone : String
  isGroup : Bool
  isNewsletter : Bool
  isLid : Bool
  message : Option String
deriving DecidableEq, Repr

/-- What one request handler cannot control.
* `apiUrl` is `process.env.WPPCONNECT_API_URL`;
* `gateway i req` is the outcome of the call made in loop iteration `i`: `none` when the
  promise resolves, `some m` when it rejects with an error whose message is `m`;
* `now i` is the value of `new Date()` in iteration `i`;
* `findFault` is `some m` when the query of the store throws an error with message `m`;
* `saveFault k` is `some m` when the `k`-th `save()` of the request (counted from 0) is
  refused by the store with an error with message `m`. -/
structure Env where
  apiUrl : String
  gateway : Nat → GatewayRequest → Option String
  now : Nat → Nat
  findFault : Option String
  saveFault : Nat → Option String

/-- What a handler did, in order: the `try` block of iteration `i` (with the gateway request
when the block got as far as `axios.post`), and the `setTimeout` pauses with the number of
milliseconds requested. -/
inductive Event where
  | attempt (i : Nat) (request : Option GatewayRequest)
  | pause (ms : Int)
deriving DecidableEq, Repr

/-- The HTTP response: `res.status(code).json(campaign)` or
`res.status(code).json(\x7b message, error \x7d)`. -/
inductive Response where
  | json (code : Nat) (campaign : Campaign)
  | failure (code : Nat) (message : String) (error : Option String)
deriving DecidableEq, Repr

/-! ## JavaScript helpers -/

/-- The string a template literal produces for a value that may be `undefined`. -/
def templateString (s : Option String) : String :=
  s.getD "undefined"

/-- On the characters of a string, `String.prototype.replace(pat, '')` with a string
pattern: the first occurrence of `pat` is removed, the rest is kept. -/
def removeFirst (pat : List Char) : List Char → List Char
  | [] => []
  | c :: cs =>
    if pat.isPrefixOf (c :: cs) then (c :: cs).drop pat.length
    else c :: removeFirst pat cs

/-- The expression `s.replace(pat, '')`. -/
def replaceWithEmpty (s pat : String) : String :=
  String.mk (removeFirst pat.toList s.toList)

/-- On the characters of a string, `String.prototype.includes(pat)`: `pat` occurs somewhere. -/
def includesChars (pat : List Char) : List Char → Bool
  | [] => pat.isPrefixOf []
  | c :: cs => pat.isPrefixOf (c :: cs) || includesChars pat cs

/-- The expression `s.includes(pat)`. -/
def includes (s pat : String) : Bool :=
  includesChars pat.toList s.toList

/-- The message of the `TypeError` thrown by `recipient.phone.replace` when the recipient has
no `phone`. -/
def typeErrorMessage : String :=
  "Cannot read properties of undefined (reading 'replace')"

/-! ## The store -/

/-- The query `Campaign.findOne(\x7b _id: id, userId: userId \x7d)`. -/
def findOne (store : Store) (id userId : Nat) : Option Campaign :=
  store.find? (fun c => c.id == id && c.userId == userId)

/-- A `required: true` string path passes validation when it is present and not empty. -/
def requiredString : Option String → Bool
  | some s => s != ""
  | none => false

/-- Validation run by `save()`, from `campaignSchema`: `name` and `message` are required
(`userId` is required too and always present in this model).  The result is the error
message, `none` when the document is valid. -/
def validate (c : Campaign) : Option String :=
  if !requiredString c.name then some "Campaign validation failed: name is required"
  else if !requiredString c.message then some "Campaign validation failed: message is required"
  else none

/-- The write of a loaded document: the stored document with the same `_id` is replaced. -/
def replaceDoc (c : Campaign) (store : Store) : Store :=
  store.map (fun d => if d.id = c.id then c else d)

/-- The call `campaign.save()` on a document loaded from the store, as the `k`-th save of the
request: validation, then the write.  An error leaves the store as it is. -/
def save (env : Env) (k : Nat) (c : Campaign) (store : Store) : Except String Store :=
  match validate c with
  | some e => .error e
  | none =>
    match env.saveFault k with
    | some e => .error e
    | none => .ok (replaceDoc c store)

/-- The call `campaign.save()` on a new document: validation, then insertion. -/
def saveNew (env : Env) (k : Nat) (c : Campaign) (store : Store) : Except String Store :=
  match validate c with
  | some e => .error e
  | none =>
    match env.saveFault k with
    | some e => .error e
    | none => .ok (store ++ [c])

/-! ## `POST /` : create a campaign -/

/-- The fields the create handler takes from `req.body`; each may be absent. -/
structure CreateBody where
  name : Option String
  message : Option String
  recipients : Option (List Recipient)
  delay : Option Int
deriving DecidableEq, Repr

/-- The largest delay `setTimeout` takes as given, `2^31 - 1` milliseconds.  Whole numbers up
to it are exact as JavaScript `Number`s; above it the timer would not wait the delay it is
given, and from `2^53` on a `Number` no longer holds every whole number. -/
def maxTimerDelay : Int :=
  2147483647

/-- The expression `delay || 3000`: an absent delay and the delay `0` are falsy.  The delay is
a JavaScript `Number`; the integer stands for it exactly for whole numbers of milliseconds
whose magnitude is at most `maxTimerDelay`, the range in which the facts on delays are
stated. -/
def delayOrDefault : Option Int → Int
  | some d => if d = 0 then 3000 else d
  | none => 3000

/-- The document `new Campaign(...)` builds in the create handler, for a body that has a
`recipients` array: the schema defaults give `status`, `results` and the two counters. -/
def newCampaign (user : User) (newId : Nat) (body : CreateBody) (recipients : List Recipient) :
    Campaign :=
  { id := newId
    userId := user.id
    name := body.name
    message := body.message
    recipients := recipients
    status := .draft
    results := []
    totalRecipients := recipients.length
    successCount := 0
    failureCount := 0
    delay := delayOrDefault body.delay }

/-- The handler `router.post('/')`.  `newId` is the `_id` generated for the document.
`recipients.length` throws when the body has no `recipients`; every error ends in the `catch`
block, which answers 500. -/
def createHandler (env : Env) (user : User) (newId : Nat) (body : CreateBody) (store : Store) :
    Response × Store :=
  match body.recipients with
  | none =>
    (.failure 500 "Failed to create campaign"
      (some "Cannot read properties of undefined (reading 'length')"), store)
  | some recipients =>
    let campaign := newCampaign user newId body recipients
    match saveNew env 0 campaign store with
    | .error e => (.failure 500 "Failed to create campaign" (some e), store)
    | .ok store1 => (.json 201 campaign, store1)

/-! ## `POST /:id/send` : send a campaign -/

/-- The phone of the outbound request: `recipient.phone.replace('@c.us', '').replace('@g.us', '')`. -/
def normalizePhone (phone : String) : String :=
  replaceWithEmpty (replaceWithEmpty phone "@c.us") "@g.us"

/-- The `axios.post` call for a recipient whose phone is `phone`. -/
def mkRequest (env : Env) (user : User) (campaign : Campaign) (recipient : Recipient)
    (phone : String) : GatewayRequest :=
  { url := env.apiUrl ++ "/api/" ++ templateString user.sessionName ++ "/send-message"
    authorization := "Bearer " ++ templateString user.whatsappToken
    phone := normalizePhone phone
    isGroup := recipient.isGroup.getD false
    isNewsletter := false
    isLid := false
    message := campaign.message }

/-- The part of the `try` block up to the end of `await axios.post(...)` in iteration `i`:
the request made, if any, and the error thrown, if any.  A recipient without `phone` throws
a `TypeError` before any request is made. -/
def tryDeliver (env : Env) (user : User) (campaign : Campaign) (i : Nat) (recipient : Recipient) :
    Option GatewayRequest × Option String :=
  match recipient.phone with
  | none => (none, some typeErrorMessage)
  | some phone =>
    let request := mkRequest env user campaign recipient phone
    (some request, env.gateway i request)

/-- The state of the send loop: the loaded document `campaign`, whose counters the loop
increments, the local array `results`, and the trace of what was done so far. -/
structure LoopState where
  campaign : Campaign
  results : List ResultEntry
  trace : List Event
deriving DecidableEq, Repr

/-- The `try`/`catch` of iteration `i`: one entry is pushed and one counter incremented. -/
def record (env : Env) (user : User) (st : LoopState) (i : Nat) (recipient : Recipient) :
    LoopState :=
  match tryDeliver env user st.campaign i recipient with
  | (request, none) =>
    { campaign := { st.campaign with successCount := st.campaign.successCount + 1 }
      results := st.results ++
        [{ recipient := recipient.phone, status := "success", sentAt := env.now i, error := none }]
      trace := st.trace ++ [.attempt i request] }
  | (request, some message) =>
    { campaign := { st.campaign with failureCount := st.campaign.failureCount + 1 }
      results := st.results ++
        [{ recipient := recipient.phone, status := "failed", sentAt := env.now i,
           error := some message }]
      trace := st.trace ++ [.attempt i request] }

/-- The body of the `for` loop for index `i`: the `try`/`catch`, then the pause when
`i < campaign.recipients.length - 1` (the loop condition makes the length positive here, so
the truncated subtraction is the subtraction of the source). -/
def sendStep (env : Env) (user : User) (st : LoopState) (i : Nat) (recipient : Recipient) :
    LoopState :=
  let st1 := record env user st i recipient
  if i < st1.campaign.recipients.length - 1 then
    { st1 with trace := st1.trace ++ [.pause st1.campaign.delay] }
  else st1

/-- The state of the send loop after `k` iterations (`i = 0, ..., k - 1`), started on the
loaded document `campaign` with `results = []`.  An iteration whose index fails the loop
condition `i < campaign.recipients.length` does nothing, so the loop is over after
`campaign.recipients.length` iterations. -/
def sendLoop (env : Env) (user : User) (campaign : Campaign) : Nat → LoopState
  | 0 => { campaign := campaign, results := [], trace := [] }
  | k + 1 =>
    let st := sendLoop env user campaign k
    match st.campaign.recipients[k]? with
    | some recipient => sendStep env user st k recipient
    | none => st

/-- The outcome of the send handler: the response, the store it leaves, the trace of the
loop, and the documents written by the successful `save()` calls, in order. -/
structure SendResult where
  response : Response
  store : Store
  trace : List Event
  saved : List Campaign
deriving DecidableEq, Repr

/-- The handler `router.post('/:id/send')` for the user `user` and the campaign id `id`. -/
def sendHandler (env : Env) (user : User) (id : Nat) (store : Store) : SendResult :=
  match env.findFault with
  | some e =>
    { response := .failure 500 "Failed to send campaign" (some e)
      store := store, trace := [], saved := [] }
  | none =>
    match findOne store id user.id with
    | none =>
      { response := .failure 404 "Campaign not found" none
        store := store, trace := [], saved := [] }
    | some campaign =>
      let running := { campaign with status := .running }
      match save env 0 running store with
      | .error e =>
        { response := .failure 500 "Failed to send campaign" (some e)
          store := store, trace := [], saved := [] }
      | .ok store1 =>
        let st := sendLoop env user running running.recipients.length
        let final := { st.campaign with results := st.results, status := .completed }
        match save env 1 final store1 with
        | .error e =>
          { response := .failure 500 "Failed to send campaign" (some e)
            store := store1, trace := st.trace, saved := [running] }
        | .ok store2 =>
          { response := .json 200 final
            store := store2, trace := st.trace, saved := [running, final] }

/-! ## Observations on a trace -/

/-- The gateway calls of a trace, in order. -/
def gatewayCalls : List Event → List GatewayRequest
  | [] => []
  | .attempt _ (some request) :: rest => request :: gatewayCalls rest
  | .attempt _ none :: rest => gatewayCalls rest
  | .pause _ :: rest => gatewayCalls rest

/-- The pauses of a trace, in order, each with the milliseconds requested. -/
def pauses : List Event → List Int
  | [] => []
  | .attempt _ _ :: rest => pauses rest
  | .pause ms :: rest => ms :: pauses rest

/-- The store answers the query and accepts every `save()`. -/
def StoreReliable (env : Env) : Prop :=
  env.findFault = none ∧ ∀ k, env.saveFault k = none

/-! ## Closed forms of what the send loop produces -/

/-- The ledger entry iteration `i` pushes for `recipient`. -/
def ledgerEntry (env : Env) (user : User) (campaign : Campaign) (i : Nat) (recipient : Recipient) :
    ResultEntry :=
  match (tryDeliver env user campaign i recipient).2 with
  | none => { recipient := recipient.phone, status := "success", sentAt := env.now i, error := none }
  | some message =>
    { recipient := recipient.phone, status := "failed", sentAt := env.now i, error := some message }

/-- Two documents agree on everything the send loop does not write. -/
def SameDefinition (a b : Campaign) : Prop :=
  a.id = b.id ∧ a.userId = b.userId ∧ a.name = b.name ∧ a.message = b.message ∧
  a.recipients = b.recipients ∧ a.totalRecipients = b.totalRecipients ∧ a.delay = b.delay ∧
  a.status = b.status ∧ a.results = b.results

/-- The ledger the loop builds for the recipients `rs` processed from index `i` on. -/
def ledgerFrom (env : Env) (user : User) (campaign : Campaign) : Nat → List Recipient → List ResultEntry
  | _, [] => []
  | i, r :: rs => ledgerEntry env user campaign i r :: ledgerFrom env user campaign (i + 1) rs

/-- The trace the loop leaves for the recipients `rs` processed from index `i` on. -/
def traceFrom (env : Env) (user : User) (campaign : Campaign) : Nat → List Recipient → List Event
  | _, [] => []
  | i, r :: rs =>
    .attempt i (tryDeliver env user campaign i r).1 ::
      ((if i < campaign.recipients.length - 1 then [.pause campaign.delay] else []) ++
        traceFrom env user campaign (i + 1) rs)

/-- The attempts of the loop for the recipients `rs` processed from index `i` on. -/
def attemptsFrom (env : Env) (user : User) (campaign : Campaign) : Nat → List Recipient → List Event
  | _, [] => []
  | i, r :: rs =>
    .attempt i (tryDeliver env user campaign i r).1 :: attemptsFrom env user campaign (i + 1) rs

/-- The document the send handler saves before the loop. -/
def runningDoc (campaign : Campaign) : Campaign :=
  { campaign with status := .running }

/-- The document the send handler saves after the loop and returns. -/
def finalDoc (env : Env) (user : User) (campaign : Campaign) : Campaign :=
  let st := sendLoop env user (runningDoc campaign) campaign.recipients.length
  { st.campaign with results := st.results, status := .completed }

/-- The gateway requests of a send of `campaign`: one for each recipient that has a phone, in
the order of the recipient list. -/
def requestsOf (env : Env) (user : User) (campaign : Campaign) : List GatewayRequest :=
  campaign.recipients.filterMap (fun r => r.phone.map (mkRequest env user campaign r))

/-- The fields of a campaign document the send handler has no assignment for: two documents
agree on `_id`, `userId`, `name`, `message`, `recipients`, `delay` and `totalRecipients`. -/
def DefinitionKept (a b : Campaign) : Prop :=
  a.id = b.id ∧ a.userId = b.userId ∧ a.name = b.name ∧ a.message = b.message ∧
  a.recipients = b.recipients ∧ a.delay = b.delay ∧ a.totalRecipients = b.totalRecipients

/-! ## Sample data -/

/-- A user with a session and a token. -/
def sampleUser : User :=
  { id := 1, sessionName := some "SESSION_1", whatsappToken := some "token" }

/-- A gateway that accepts every call, on a working store. -/
def acceptingEnv : Env :=
  { apiUrl := "http://gateway", gateway := fun _ _ => none, now := fun i => 1000 + i,
    findFault := none, saveFault := fun _ => none }

/-- A gateway that fails every call with `timeout`, on a working store. -/
def rejectingEnv : Env :=
  { apiUrl := "http://gateway", gateway := fun _ _ => some "timeout", now := fun i => 1000 + i,
    findFault := none, saveFault := fun _ => none }

/-- A gateway that fails the call of iteration `1` only, on a working store. -/
def secondFailsEnv : Env :=
  { apiUrl := "http://gateway", gateway := fun i _ => if i = 1 then some "timeout" else none,
    now := fun i => 1000 + i, findFault := none, saveFault := fun _ => none }

/-- A draft campaign of user `1` with two recipients, a chat and a group. -/
def sampleCampaign : Campaign :=
  { id := 7, userId := 1, name := some "spring", message := some "hello",
    recipients := [{ phone := some "111@c.us", name := none, isGroup := none },
                   { phone := some "222@g.us", name := none, isGroup := some true }],
    status := .draft, results := [], totalRecipients := 2, successCount := 0,
    failureCount := 0, delay := 0 }

/-- A gateway that fails the call of iteration `0` only, on a working store. -/
def firstFailsEnv : Env :=
  { apiUrl := "http://gateway", gateway := fun i _ => if i = 0 then some "timeout" else none,
    now := fun i => 1000 + i, findFault := none, saveFault := fun _ => none }

/-- The sample campaign as a first send on the accepting gateway leaves it. -/
def sentCampaign : Campaign :=
  { sampleCampaign with
    status := .completed
    results := [{ recipient := some "111@c.us", status := "success", sentAt := 1000, error := none },
                { recipient := some "222@g.us", status := "success", sentAt := 1001, error := none }]
    successCount := 2 }

/-- The sample campaign stored with status `running`. -/
def runningCampaign : Campaign :=
  { sampleCampaign with status := .running }

/-- A draft campaign without recipients. -/
def emptyCampaign : Campaign :=
  { sampleCampaign with recipients := [], totalRecipients := 0 }

/-- The sample campaign stored with status `failed`. -/
def failedCampaign : Campaign :=
  { sampleCampaign with status := .failed }

/-- A draft campaign whose only recipient has a name and no phone. -/
def noPhoneCampaign : Campaign :=
  { sampleCampaign with
    recipients := [{ phone := none, name := some "Ann", isGroup := none }]
    totalRecipients := 1 }

/-- A create request for two recipients that asks for the delay `0`. -/
def zeroDelayBody : CreateBody :=
  { name := some "spring", message := some "hello",
    recipients := some [{ phone := some "111@c.us", name := none, isGroup := none },
                        { phone := some "222@g.us", name := none, isGroup := some true }],
    delay := some 0 }

/-- A create request for two recipients that asks for the delay `250`, which is not one of
the values the form offers. -/
def shortDelayBody : CreateBody :=
  { zeroDelayBody with delay := some 250 }

/-- A draft campaign whose only recipient has the phone `1@g.us@c.us`, that is `1@g.us`
followed by `@c.us`. -/
def markedCampaign : Campaign :=
  { sampleCampaign with
    recipients := [{ phone := some "1@g.us@c.us", name := none, isGroup := none }]
    totalRecipients := 1 }

/-- A working gateway on a store that refuses the second `save()` of a request, the one
after the loop. -/
def finalSaveFailsEnv : Env :=
  { acceptingEnv with saveFault := fun k => if k = 1 then some "store unavailable" else none }

/-- A working gateway on a store that refuses the first `save()` of a request, the one that
writes the status `running`. -/
def firstSaveFailsEnv : Env :=
  { acceptingEnv with saveFault := fun k => if k = 0 then some "store unavailable" else none }

/-- A working gateway on a store whose query throws. -/
def loadFailsEnv : Env :=
  { acceptingEnv with findFault := some "store unavailable" }

/-- The sample campaign as a first send on the rejecting gateway leaves it. -/
def rejectedCampaign : Campaign :=
  { sampleCampaign with
    status := .completed
    results := [{ recipient := some "111@c.us", status := "failed", sentAt := 1000,
                  error := some "timeout" },
                { recipient := some "222@g.us", status := "failed", sentAt := 1001,
                  error := some "timeout" }]
    failureCount := 2 }

/-- The sample campaign stored with an empty message. -/
def blankMessageCampaign : Campaign :=
  { sampleCampaign with message := some "" }

/-- A second user, who owns no campaign of the sample store. -/
def otherUser : User :=
  { id := 2, sessionName := some "SESSION_2", whatsappToken := some "token2" }

/-- A create request for two recipients that gives no delay. -/
def noDelayBody : CreateBody :=
  { zeroDelayBody with delay := none }

/-! ## `parseRecipients` of the create form (`frontend/src/pages/CreateCampaign.jsx`) -/

/-- The characters `String.prototype.trim` removes: white space and line terminators, given
by their code points. -/
def isTrimChar (c : Char) : Bool :=
  c.toNat = 9 || c.toNat = 10 || c.toNat = 11 || c.toNat = 12 || c.toNat = 13 ||
  c.toNat = 32 || c.toNat = 160 || c.toNat = 5760 ||
  (8192 ≤ c.toNat && c.toNat ≤ 8202) || c.toNat = 8232 || c.toNat = 8233 ||
  c.toNat = 8239 || c.toNat = 8287 || c.toNat = 12288 || c.toNat = 65279

/-- On the characters of a string, `String.prototype.trim`: the characters it removes are
dropped at both ends. -/
def trimChars (l : List Char) : List Char :=
  ((l.dropWhile isTrimChar).reverse.dropWhile isTrimChar).reverse

/-- The expression `s.trim()`. -/
def jsTrim (s : String) : String :=
  String.mk (trimChars s.toList)

/-- On the characters of a string, `split` at every line feed: the pieces between the line
feeds, in order, one more than there are line feeds. -/
def splitLineChars : List Char → List (List Char)
  | [] => [[]]
  | c :: cs =>
    if c.toNat = 10 then [] :: splitLineChars cs
    else
      match splitLineChars cs with
      | [] => [[c]]
      | line :: lines => (c :: line) :: lines

/-- The expression `s.split('\n')`. -/
def splitLines (s : String) : List String :=
  (splitLineChars s.toList).map String.mk

/-- A string in a condition: the empty string is falsy. -/
def truthyString (s : String) : Bool :=
  s != ""

/-- An element of the state `selectedContacts`, as `addContact` builds it: `id` is
`contact.id._serialized`, `name` and `isGroup` have gone through `||` and are present. -/
structure SelectedContact where
  id : Option String
  name : String
  isGroup : Bool
deriving DecidableEq, Repr

/-- The body of `lines.forEach(...)`: the recipient pushed for a line, when its trimmed text
is not empty. -/
def pushLine (recipientList : List Recipient) (line : String) : List Recipient :=
  let trimmed := jsTrim line
  if truthyString trimmed then
    recipientList ++
      [{ phone := some trimmed, name := some "", isGroup := some (includes trimmed "@g.us") }]
  else recipientList

/-- The body of `selectedContacts.forEach(...)`. -/
def pushContact (recipientList : List Recipient) (contact : SelectedContact) : List Recipient :=
  recipientList ++
    [{ phone := contact.id, name := some contact.name, isGroup := some contact.isGroup }]

/-- The function `parseRecipients` of the create form, on the state `recipients` (the text
of the manual entry) and `selectedContacts`. -/
def parseRecipients (recipients : String) (selectedContacts : List SelectedContact) :
    List Recipient :=
  let recipientList : List Recipient :=
    if truthyString (jsTrim recipients) then
      let lines := (splitLines recipients).filter (fun line => truthyString (jsTrim line))
      lines.foldl pushLine []
    else []
  selectedContacts.foldl pushContact recipientList

/-- The lines of the manual entry that are not blank after trimming, in order. -/
def nonBlankLines (recipients : String) : List String :=
  (splitLines recipients).filter (fun line => truthyString (jsTrim line))

/-- The recipient of a manual line: the trimmed line as phone, an empty name, and the group
flag set exactly when the trimmed line contains `@g.us`. -/
def lineRecipient (line : String) : Recipient :=
  { phone := some (jsTrim line), name := some "", isGroup := some (includes (jsTrim line) "@g.us") }

/-- The recipient of a selected contact. -/
def contactRecipient (contact : SelectedContact) : Recipient :=
  { phone := contact.id, name := some contact.name, isGroup := some contact.isGroup }

/-! ## `POST /fetch-group-members` (`backend/routes/whatsapp.js`, `backend/models/UserData.js`) -/

/-- A value of a JSON response as JavaScript sees it.  `null` also stands for `undefined`:
in the handler modelled here the two are read in the same way (both are falsy, and a
property of either is read only behind `?.`, except for `m.id`, which throws for both).
Numbers are the integers. -/
inductive Json where
  | null
  | bool (b : Bool)
  | num (n : Int)
  | str (s : String)
  | arr (items : List Json)
  | obj (fields : List (String × Json))

/-- A value in a condition: `null`, `false`, `0` and the empty string are falsy. -/
def Json.truthy : Json → Bool
  | .null => false
  | .bool b => b
  | .num n => n != 0
  | .str s => s != ""
  | .arr _ => true
  | .obj _ => true

/-- The expression `a || b`. -/
def Json.or (a b : Json) : Json :=
  if a.truthy then a else b

/-- The property `key` of a value, read as `value?.key`, or as `value.key` on a value that
is not `null`: the field of an object, `null` (for `undefined`) otherwise.  The keys read by
the handler are no properties of strings, numbers, booleans or arrays. -/
def Json.get (value : Json) (key : String) : Json :=
  match value with
  | .obj fields => (fields.lookup key).getD .null
  | _ => .null

/-- The test `Array.isArray(value)`. -/
def Json.isArray : Json → Bool
  | .arr _ => true
  | _ => false

/-- The test `Array.isArray(value) && value.length > 0`. -/
def Json.isNonEmptyArray : Json → Bool
  | .arr (_ :: _) => true
  | _ => false

/-- The loop over `possiblePaths`: the first path that is a non-empty array replaces
`members`. -/
def firstNonEmptyArray (possiblePaths : List Json) (members : Json) : Json :=
  match possiblePaths.find? Json.isNonEmptyArray with
  | some path => path
  | none => members

/-- The value `members` before `members.map`, from `membersResponse.data`: the three steps of
the handler. -/
def extractMembers (data : Json) : Json :=
  let members := ((data.get "response").or data).or (.arr [])
  let members :=
    if !members.isArray then
      ((members.get "participants").or ((members.get "groupMetadata").get "participants")).or
        (.arr [])
    else members
  if !members.isArray || !members.isNonEmptyArray then
    firstNonEmptyArray
      [data.get "result", data.get "data", data.get "members",
       (data.get "groupInfo").get "participants", (data.get "chat").get "participants"]
      members
  else members

/-- An element of `processedMembers`. -/
structure ProcessedMember where
  id : Json
  phone : Json
  name : Json

/-- The message of the `TypeError` of `m.id` on a member that is `null`. -/
def nullMemberMessage : String :=
  "Cannot read properties of null (reading 'id')"

/-- The message of the `TypeError` of `memberId.replace` on a member id that is no string. -/
def replaceMessage : String :=
  "memberId.replace is not a function"

/-- The message of the `TypeError` of `m.id.includes` on an id that is neither a string nor
an array. -/
def includesMessage : String :=
  "m.id.includes is not a function"

/-- The message of the `TypeError` of `members.map` on a value that is no array. -/
def mapMessage : String :=
  "members.map is not a function"

/-- The callback of `members.map`.  It throws when the member is `null`, and when the phone
has to be computed from a member id that is no string. -/
def processMember (m : Json) : Except String ProcessedMember :=
  match m with
  | .null => .error nullMemberMessage
  | _ =>
    let memberId :=
      (((((m.get "id").get "_serialized").or (m.get "id")).or
        (((m.get "contact").get "id").get "_serialized")).or (m.get "user")).or (.str "")
    let named (phone : Json) : ProcessedMember :=
      { id := memberId
        phone := phone
        name := (((m.get "name").or (m.get "formattedName")).or (m.get "pushname")).or phone }
    if ((m.get "id").get "user").truthy then .ok (named ((m.get "id").get "user"))
    else
      match memberId with
      | .str s =>
        .ok (named (.str (replaceWithEmpty
          (replaceWithEmpty (replaceWithEmpty s "@c.us") "@g.us") "@lid")))
      | _ => .error replaceMessage

/-- The call `id.includes(marker)` on an array: some element is the string `marker`. -/
def arrayIncludes (items : List Json) (marker : String) : Bool :=
  items.any (fun item => match item with
    | .str s => s == marker
    | _ => false)

/-- The callback of `.filter`: `m.id && (m.id.includes('@c.us') || m.id.includes('@lid'))`.
A falsy id is dropped; `includes` is the one of strings or of arrays, and throws on any other
truthy id. -/
def keepMember (m : ProcessedMember) : Except String Bool :=
  match m.id with
  | .str s => .ok (s != "" && (includes s "@c.us" || includes s "@lid"))
  | .arr items => .ok (arrayIncludes items "@c.us" || arrayIncludes items "@lid")
  | other => if other.truthy then .error includesMessage else .ok false

/-- The call `members.map(...)` on the elements of an array, in order; the first callback
that throws ends it. -/
def mapMembers : List Json → Except String (List ProcessedMember)
  | [] => .ok []
  | m :: rest =>
    match processMember m with
    | .error e => .error e
    | .ok first =>
      match mapMembers rest with
      | .error e => .error e
      | .ok others => .ok (first :: others)

/-- The call `.filter(...)` on the mapped members, in order; the first callback that throws
ends it. -/
def filterMembers : List ProcessedMember → Except String (List ProcessedMember)
  | [] => .ok []
  | m :: rest =>
    match keepMember m with
    | .error e => .error e
    | .ok keep =>
      match filterMembers rest with
      | .error e => .error e
      | .ok others => .ok (if keep then m :: others else others)

/-- The value `processedMembers`, or the error thrown while it is computed. -/
def processedMembers (members : Json) : Except String (List ProcessedMember) :=
  match members with
  | .arr items =>
    match mapMembers items with
    | .error e => .error e
    | .ok mapped => filterMembers mapped
  | _ => .error mapMessage

/-- An element of `groups` of a `UserData` document, with the fields the handler writes.  The
members are recorded as they are handed to the store (`id` and `phone`; the schema has no
`name`); what the schema makes of an `id` or `phone` that is no string is not modelled. -/
structure StoredGroup where
  id : Option String
  members : List (Json × Json)
  memberCount : Option Nat
  membersLoaded : Bool

/-- A `UserData` document: the owner, the groups and `lastSyncAt`. -/
structure UserDataDoc where
  userId : Nat
  groups : List StoredGroup
  lastSyncAt : Nat

/-- The collection of `UserData` documents. -/
abbrev DataStore := List UserDataDoc

/-- The `$set` on `groups.$` : the first group with the id `groupId` is updated. -/
def setGroupMembers (groupId : String) (members : List ProcessedMember) :
    List StoredGroup → List StoredGroup
  | [] => []
  | g :: gs =>
    if g.id = some groupId then
      { g with
        members := members.map (fun m => (m.id, m.phone))
        memberCount := some members.length
        membersLoaded := true } :: gs
    else g :: setGroupMembers groupId members gs

/-- The test of the filter `'groups.id': groupId` on a document. -/
def hasGroup (groupId : String) (doc : UserDataDoc) : Bool :=
  doc.groups.any (fun g => g.id = some groupId)

/-- The call `UserData.updateOne(\x7b userId, 'groups.id': groupId \x7d, \x7b $set: ... \x7d)`: the
first document of the user that has the group is updated; without such a document nothing
is written. -/
def updateGroupMembers (userId : Nat) (groupId : String) (members : List ProcessedMember) :
    DataStore → DataStore
  | [] => []
  | doc :: docs =>
    if doc.userId = userId ∧ hasGroup groupId doc = true then
      { doc with groups := setGroupMembers groupId members doc.groups } :: docs
    else doc :: updateGroupMembers userId groupId members docs

/-- The call `UserData.updateOne(\x7b userId \x7d, \x7b $set: \x7b lastSyncAt \x7d \x7d)`. -/
def updateLastSync (userId : Nat) (now : Nat) : DataStore → DataStore
  | [] => []
  | doc :: docs =>
    if doc.userId = userId then { doc with lastSyncAt := now } :: docs
    else doc :: updateLastSync userId now docs

/-- What the fetch handler cannot control.
* `getMembers i groupId` is the outcome of the `axios.get` of iteration `i`: the `data` of
  the response, or the message of the error;
* `postMembers i groupId` is the outcome of the `axios.post` made when the `get` failed;
* `updateFault i` is `some m` when the `updateOne` of iteration `i` throws with message `m`;
* `syncFault` is `some m` when the `updateOne` after the loop throws with message `m`;
* `now` is the value of `new Date()` after the loop. -/
structure FetchEnv where
  apiUrl : String
  getMembers : Nat → String → Except String Json
  postMembers : Nat → String → Except String Json
  updateFault : Nat → Option String
  syncFault : Option String
  now : Nat

/-- What the fetch handler did, in order: the two kinds of gateway call with their URL, the
update of a group in the store, and the pause after a success. -/
inductive FetchEvent where
  | get (url : String)
  | post (url : String) (groupId : String)
  | update (groupId : String)
  | pause (ms : Nat)
deriving DecidableEq, Repr

/-- An element of `results` of the fetch handler. -/
structure GroupResult where
  groupId : String
  memberCount : Option Nat
  error : Option String
  status : String
deriving DecidableEq, Repr

/-- The inner `try`/`catch` around `axios.get`: the response data of the `get`, or of the
`post` made when the `get` failed, with the calls made. -/
def fetchMembers (env : FetchEnv) (user : User) (i : Nat) (groupId : String) :
    List FetchEvent × Except String Json :=
  let base := env.apiUrl ++ "/api/" ++ templateString user.sessionName ++ "/group-members"
  match env.getMembers i groupId with
  | .ok data => ([.get (base ++ "/" ++ groupId)], .ok data)
  | .error _ => ([.get (base ++ "/" ++ groupId), .post base groupId], env.postMembers i groupId)

/-- The state of the loop of the fetch handler: the store, the array `results` and the trace
of what was done. -/
structure FetchState where
  store : DataStore
  results : List GroupResult
  events : List FetchEvent

/-- The `catch` of the loop body: a failed entry is pushed. -/
def fetchFailed (st : FetchState) (events : List FetchEvent) (groupId : String)
    (message : String) : FetchState :=
  { store := st.store
    results := st.results ++
      [{ groupId := groupId, memberCount := none, error := some message, status := "failed" }]
    events := st.events ++ events }

/-- The body of `for (const groupId of groupIds)` in iteration `i`. -/
def fetchStep (env : FetchEnv) (user : User) (i : Nat) (groupId : String) (st : FetchState) :
    FetchState :=
  match fetchMembers env user i groupId with
  | (events, .error e) => fetchFailed st events groupId e
  | (events, .ok data) =>
    match processedMembers (extractMembers data) with
    | .error e => fetchFailed st events groupId e
    | .ok kept =>
      match env.updateFault i with
      | some e => fetchFailed st (events ++ [.update groupId]) groupId e
      | none =>
        { store := updateGroupMembers user.id groupId kept st.store
          results := st.results ++
            [{ groupId := groupId, memberCount := some kept.length, error := none,
               status := "success" }]
          events := st.events ++ events ++ [.update groupId, .pause 1000] }

/-- The loop `for (const groupId of groupIds)` from iteration `i` on. -/
def fetchLoop (env : FetchEnv) (user : User) : Nat → List String → FetchState → FetchState
  | _, [], st => st
  | i, groupId :: rest, st => fetchLoop env user (i + 1) rest (fetchStep env user i groupId st)

/-- The response of the fetch handler: `res.json(\x7b results, message \x7d)` or
`res.status(code).json(\x7b message, error \x7d)`. -/
inductive FetchResponse where
  | results (results : List GroupResult) (message : String)
  | failure (code : Nat) (message : String) (error : Option String)
deriving DecidableEq, Repr

/-- The outcome of the fetch handler: the response, the store it leaves and the trace. -/
structure FetchResult where
  response : FetchResponse
  store : DataStore
  events : List FetchEvent

/-- The handler `router.post('/fetch-group-members')`.  `groupIds` is `none` when
`req.body.groupIds` is no array.  The console output is left out. -/
def fetchGroupMembers (env : FetchEnv) (user : User) (groupIds : Option (List String))
    (store : DataStore) : FetchResult :=
  match groupIds with
  | none => { response := .failure 400 "Group IDs required" none, store := store, events := [] }
  | some [] => { response := .failure 400 "Group IDs required" none, store := store, events := [] }
  | some (first :: rest) =>
    let st := fetchLoop env user 0 (first :: rest) { store := store, results := [], events := [] }
    match env.syncFault with
    | some e =>
      { response := .failure 500 "Failed to fetch group members" (some e)
        store := st.store, events := st.events }
    | none =>
      { response := .results st.results
          ("Processed " ++ toString (first :: rest).length ++ " groups")
        store := updateLastSync user.id env.now st.store
        events := st.events }

/-- The number of `axios.get` calls of a trace. -/
def getCount : List FetchEvent → Nat
  | [] => 0
  | .get _ :: rest => getCount rest + 1
  | _ :: rest => getCount rest

/-- The member count stored for the group `groupId` of the user: `none` when the user has no
document with that group. -/
def storedMemberCount (userId : Nat) (groupId : String) : DataStore → Option (Option Nat)
  | [] => none
  | doc :: docs =>
    if doc.userId = userId ∧ hasGroup groupId doc = true then
      (doc.groups.find? (fun g => g.id = some groupId)).map (fun g => g.memberCount)
    else storedMemberCount userId groupId docs

/-- The id of a kept member contains `marker` in the sense of `includes`: it is a string with
`marker` as a substring, or an array with the string `marker` as an element. -/
def idIncludes (id : Json) (marker : String) : Prop :=
  (∃ s, id = .str s ∧ includes s marker = true) ∨
  (∃ items, id = .arr items ∧ arrayIncludes items marker = true)


/-- A group member as the gateway reports it, with a serialized id and a user part. -/
def annMember : Json :=
  .obj [("id", .obj [("_serialized", .str "111@c.us"), ("user", .str "111")]),
        ("name", .str "Ann")]

/-- A member entry that stands for the group itself. -/
def groupEntry : Json :=
  .obj [("id", .obj [("_serialized", .str "g1@g.us")])]

/-- A member reported with a plain `@lid` id. -/
def lidMember : Json :=
  .obj [("id", .str "222@lid")]

/-- A gateway that answers the `get` for the group `g1@g.us` with three raw members under
`response` and fails every other call, on a working store. -/
def sampleFetchEnv : FetchEnv :=
  { apiUrl := "http://gateway"
    getMembers := fun _ groupId =>
      if groupId = "g1@g.us" then .ok (.obj [("response", .arr [annMember, groupEntry, lidMember])])
      else .error "timeout"
    postMembers := fun _ _ => .error "Request failed with status code 404"
    updateFault := fun _ => none
    syncFault := none
    now := 5000 }

/-- The data of the sample user: two groups whose members are not loaded. -/
def sampleData : DataStore :=
  [{ userId := 1
     groups := [{ id := some "g0@g.us", members := [], memberCount := none, membersLoaded := false },
                { id := some "g1@g.us", members := [], memberCount := none, membersLoaded := false }]
     lastSyncAt := 0 }]

/-! ## The send loop, iteration by iteration -/
theorem tryDeliver_congr (env : Env) (user : User) (a b : Campaign) (i : Nat) (r : Recipient)
    (h : a.message = b.message) : tryDeliver env user a i r = tryDeliver env user b i r := by
  unfold tryDeliver mkRequest
  rw [h]

theorem ledgerEntry_congr (env : Env) (user : User) (a b : Campaign) (i : Nat) (r : Recipient)
    (h : a.message = b.message) : ledgerEntry env user a i r = ledgerEntry env user b i r := by
  unfold ledgerEntry
  rw [tryDeliver_congr env user a b i r h]

theorem record_results (env : Env) (user : User) (st : LoopState) (i : Nat) (r : Recipient) :
    (record env user st i r).results = st.results ++ [ledgerEntry env user st.campaign i r] := by
  unfold record ledgerEntry
  rcases h : tryDeliver env user st.campaign i r with ⟨req, _ | m⟩ <;> simp

theorem record_trace (env : Env) (user : User) (st : LoopState) (i : Nat) (r : Recipient) :
    (record env user st i r).trace =
      st.trace ++ [.attempt i (tryDeliver env user st.campaign i r).1] := by
  unfold record
  rcases h : tryDeliver env user st.campaign i r with ⟨req, _ | m⟩ <;> simp

theorem record_sameDefinition (env : Env) (user : User) (st : LoopState) (i : Nat)
    (r : Recipient) : SameDefinition (record env user st i r).campaign st.campaign := by
  unfold record SameDefinition
  rcases h : tryDeliver env user st.campaign i r with ⟨req, _ | m⟩ <;> simp

theorem record_counts (env : Env) (user : User) (st : LoopState) (i : Nat) (r : Recipient) :
    (record env user st i r).campaign.successCount =
        st.campaign.successCount +
          (if (ledgerEntry env user st.campaign i r).status = "success" then 1 else 0) ∧
    (record env user st i r).campaign.failureCount =
        st.campaign.failureCount +
          (if (ledgerEntry env user st.campaign i r).status = "failed" then 1 else 0) := by
  unfold record ledgerEntry
  rcases h : tryDeliver env user st.campaign i r with ⟨req, _ | m⟩ <;> simp


theorem SameDefinition.trans {a b c : Campaign} (h₁ : SameDefinition a b)
    (h₂ : SameDefinition b c) : SameDefinition a c := by
  unfold SameDefinition at *
  obtain ⟨a1, a2, a3, a4, a5, a6, a7, a8, a9⟩ := h₁
  obtain ⟨b1, b2, b3, b4, b5, b6, b7, b8, b9⟩ := h₂
  exact ⟨a1.trans b1, a2.trans b2, a3.trans b3, a4.trans b4, a5.trans b5, a6.trans b6,
    a7.trans b7, a8.trans b8, a9.trans b9⟩

theorem SameDefinition.refl (a : Campaign) : SameDefinition a a := by
  unfold SameDefinition
  simp

theorem sendStep_campaign (env : Env) (user : User) (st : LoopState) (i : Nat) (r : Recipient) :
    (sendStep env user st i r).campaign = (record env user st i r).campaign := by
  unfold sendStep
  dsimp only
  split <;> rfl

theorem sendStep_results (env : Env) (user : User) (st : LoopState) (i : Nat) (r : Recipient) :
    (sendStep env user st i r).results = st.results ++ [ledgerEntry env user st.campaign i r] := by
  rw [← record_results]
  unfold sendStep
  dsimp only
  split <;> rfl

theorem sendStep_trace (env : Env) (user : User) (st : LoopState) (i : Nat) (r : Recipient) :
    (sendStep env user st i r).trace =
      st.trace ++ (.attempt i (tryDeliver env user st.campaign i r).1 ::
        (if i < st.campaign.recipients.length - 1 then [.pause st.campaign.delay] else [])) := by
  have hd := record_sameDefinition env user st i r
  obtain ⟨-, -, -, -, hrec, -, hdelay, -, -⟩ := hd
  unfold sendStep
  dsimp only
  rw [hrec, hdelay]
  split <;> simp [record_trace]

theorem sendLoop_sameDefinition (env : Env) (user : User) (c : Campaign) (k : Nat) :
    SameDefinition (sendLoop env user c k).campaign c := by
  induction k with
  | zero => exact SameDefinition.refl c
  | succ k ih =>
    unfold sendLoop
    dsimp only
    split
    · rw [sendStep_campaign]
      exact (record_sameDefinition env user _ k _).trans ih
    · exact ih

theorem sendLoop_succ (env : Env) (user : User) (c : Campaign) (k : Nat)
    (h : k < c.recipients.length) :
    sendLoop env user c (k + 1) =
      sendStep env user (sendLoop env user c k) k (c.recipients.get ⟨k, h⟩) := by
  have hrec : (sendLoop env user c k).campaign.recipients = c.recipients :=
    (sendLoop_sameDefinition env user c k).2.2.2.2.1
  conv => lhs; unfold sendLoop
  dsimp only
  rw [hrec, List.getElem?_eq_getElem h]
  rfl


theorem ledgerFrom_append (env : Env) (user : User) (c : Campaign) (i : Nat)
    (l : List Recipient) (r : Recipient) :
    ledgerFrom env user c i (l ++ [r]) =
      ledgerFrom env user c i l ++ [ledgerEntry env user c (i + l.length) r] := by
  induction l generalizing i with
  | nil => simp [ledgerFrom]
  | cons a l ih =>
    rw [List.cons_append, ledgerFrom, ledgerFrom, ih (i + 1), List.length_cons,
      show i + 1 + l.length = i + (l.length + 1) by omega]
    rfl

theorem traceFrom_append (env : Env) (user : User) (c : Campaign) (i : Nat)
    (l : List Recipient) (r : Recipient) :
    traceFrom env user c i (l ++ [r]) =
      traceFrom env user c i l ++
        (.attempt (i + l.length) (tryDeliver env user c (i + l.length) r).1 ::
          (if i + l.length < c.recipients.length - 1 then [.pause c.delay] else [])) := by
  induction l generalizing i with
  | nil => simp [traceFrom]
  | cons a l ih =>
    rw [List.cons_append, traceFrom, traceFrom, ih (i + 1), List.length_cons,
      show i + 1 + l.length = i + (l.length + 1) by omega]
    simp

theorem sendLoop_results (env : Env) (user : User) (c : Campaign) (k : Nat)
    (hk : k ≤ c.recipients.length) :
    (sendLoop env user c k).results = ledgerFrom env user c 0 (c.recipients.take k) := by
  induction k with
  | zero => simp [sendLoop, ledgerFrom]
  | succ k ih =>
    have hlt : k < c.recipients.length := hk
    have hmsg : (sendLoop env user c k).campaign.message = c.message :=
      (sendLoop_sameDefinition env user c k).2.2.2.1
    rw [sendLoop_succ env user c k hlt, sendStep_results, ih (Nat.le_of_lt hlt),
      List.take_succ, List.getElem?_eq_getElem hlt, Option.toList, ledgerFrom_append,
      ledgerEntry_congr env user _ c k _ hmsg]
    simp [Nat.min_eq_left (Nat.le_of_lt hlt)]

theorem sendLoop_trace (env : Env) (user : User) (c : Campaign) (k : Nat)
    (hk : k ≤ c.recipients.length) :
    (sendLoop env user c k).trace = traceFrom env user c 0 (c.recipients.take k) := by
  induction k with
  | zero => simp [sendLoop, traceFrom]
  | succ k ih =>
    have hlt : k < c.recipients.length := hk
    obtain ⟨-, -, -, hmsg, hrec, -, hdelay, -, -⟩ := sendLoop_sameDefinition env user c k
    rw [sendLoop_succ env user c k hlt, sendStep_trace, ih (Nat.le_of_lt hlt),
      List.take_succ, List.getElem?_eq_getElem hlt, Option.toList, traceFrom_append,
      tryDeliver_congr env user _ c k _ hmsg, hrec, hdelay]
    simp [Nat.min_eq_left (Nat.le_of_lt hlt)]

theorem sendLoop_counts (env : Env) (user : User) (c : Campaign) (k : Nat) :
    (sendLoop env user c k).campaign.successCount =
        c.successCount + (sendLoop env user c k).results.countP (fun e => e.status = "success") ∧
    (sendLoop env user c k).campaign.failureCount =
        c.failureCount + (sendLoop env user c k).results.countP (fun e => e.status = "failed") := by
  induction k with
  | zero => simp [sendLoop]
  | succ k ih =>
    by_cases hlt : k < c.recipients.length
    · rw [sendLoop_succ env user c k hlt, sendStep_campaign, sendStep_results]
      have h := record_counts env user (sendLoop env user c k) k (c.recipients.get ⟨k, hlt⟩)
      rw [h.1, h.2, ih.1, ih.2]
      simp only [List.countP_append, List.countP_cons, List.countP_nil, decide_eq_true_eq]
      omega
    · have hrec : (sendLoop env user c k).campaign.recipients = c.recipients :=
        (sendLoop_sameDefinition env user c k).2.2.2.2.1
      have hnone : (sendLoop env user c k).campaign.recipients[k]? = none := by
        rw [hrec]; exact List.getElem?_eq_none (Nat.le_of_not_lt hlt)
      have hsame : sendLoop env user c (k + 1) = sendLoop env user c k := by
        conv => lhs; unfold sendLoop
        dsimp only
        rw [hnone]
      rw [hsame]
      exact ih

/-! ## The handler on a working store -/

theorem findOne_some {store : Store} {id userId : Nat} {c : Campaign}
    (h : findOne store id userId = some c) : c.id = id ∧ c.userId = userId := by
  have := List.find?_some h
  simpa using this

theorem findOne_replaceDoc (store : Store) (id userId : Nat) (c d : Campaign)
    (h : findOne store id userId = some c) (hid : d.id = id) (hu : d.userId = userId) :
    findOne (replaceDoc d store) id userId = some d := by
  induction store with
  | nil => simp [findOne] at h
  | cons a l ih =>
    unfold findOne replaceDoc at *
    rw [List.map_cons, List.find?_cons]
    by_cases ha : a.id = d.id
    · simp [ha, hid, hu]
    · rw [List.find?_cons] at h
      have hne : a.id ≠ id := by rw [← hid]; exact ha
      have hb : (a.id == id && a.userId == userId) = false := by simp [hne]
      rw [hb] at h
      rw [if_neg ha, hb]
      exact ih h

theorem validate_congr (a b : Campaign) (hn : a.name = b.name) (hm : a.message = b.message) :
    validate a = validate b := by
  unfold validate
  rw [hn, hm]

theorem validate_runningDoc (c : Campaign) : validate (runningDoc c) = validate c :=
  validate_congr _ _ rfl rfl

theorem finalDoc_sameDefinition (env : Env) (user : User) (c : Campaign) :
    (finalDoc env user c).id = c.id ∧ (finalDoc env user c).userId = c.userId ∧
    (finalDoc env user c).name = c.name ∧ (finalDoc env user c).message = c.message ∧
    (finalDoc env user c).recipients = c.recipients ∧
    (finalDoc env user c).totalRecipients = c.totalRecipients ∧
    (finalDoc env user c).delay = c.delay := by
  obtain ⟨h1, h2, h3, h4, h5, h6, h7, -, -⟩ :=
    sendLoop_sameDefinition env user (runningDoc c) c.recipients.length
  exact ⟨h1, h2, h3, h4, h5, h6, h7⟩

theorem validate_finalDoc (env : Env) (user : User) (c : Campaign) :
    validate (finalDoc env user c) = validate c :=
  validate_congr _ _ (finalDoc_sameDefinition env user c).2.2.1
    (finalDoc_sameDefinition env user c).2.2.2.1

theorem sendHandler_ok (env : Env) (user : User) (id : Nat) (store : Store) (c : Campaign)
    (hs : StoreReliable env) (hf : findOne store id user.id = some c)
    (hv : validate c = none) :
    sendHandler env user id store =
      { response := .json 200 (finalDoc env user c)
        store := replaceDoc (finalDoc env user c) (replaceDoc (runningDoc c) store)
        trace := (sendLoop env user (runningDoc c) c.recipients.length).trace
        saved := [runningDoc c, finalDoc env user c] } := by
  have hv1 : validate (runningDoc c) = none := by rw [validate_runningDoc, hv]
  have hv2 : validate (finalDoc env user c) = none := by rw [validate_finalDoc, hv]
  unfold finalDoc runningDoc at hv2
  unfold runningDoc at hv1
  unfold sendHandler save
  simp only [hs.1, hf, hs.2, hv1, hv2]
  rfl

/-! ## Facts about the closed forms -/

theorem ledgerEntry_recipient (env : Env) (user : User) (c : Campaign) (i : Nat) (r : Recipient) :
    (ledgerEntry env user c i r).recipient = r.phone := by
  unfold ledgerEntry
  split <;> rfl

theorem ledgerFrom_length (env : Env) (user : User) (c : Campaign) (i : Nat)
    (rs : List Recipient) : (ledgerFrom env user c i rs).length = rs.length := by
  induction rs generalizing i with
  | nil => rfl
  | cons r rs ih => simp [ledgerFrom, ih]

theorem ledgerFrom_map_recipient (env : Env) (user : User) (c : Campaign) (i : Nat)
    (rs : List Recipient) :
    (ledgerFrom env user c i rs).map (fun e => e.recipient) = rs.map (fun r => r.phone) := by
  induction rs generalizing i with
  | nil => rfl
  | cons r rs ih => simp [ledgerFrom, ih, ledgerEntry_recipient]

theorem finalDoc_status (env : Env) (user : User) (c : Campaign) :
    (finalDoc env user c).status = .completed := rfl

theorem finalDoc_results (env : Env) (user : User) (c : Campaign) :
    (finalDoc env user c).results = ledgerFrom env user (runningDoc c) 0 c.recipients := by
  have h := sendLoop_results env user (runningDoc c) c.recipients.length (Nat.le_refl _)
  have hr : (runningDoc c).recipients = c.recipients := rfl
  rw [hr, List.take_length] at h
  exact h

theorem finalDoc_counts (env : Env) (user : User) (c : Campaign) :
    (finalDoc env user c).successCount =
        c.successCount + (finalDoc env user c).results.countP (fun e => e.status = "success") ∧
    (finalDoc env user c).failureCount =
        c.failureCount + (finalDoc env user c).results.countP (fun e => e.status = "failed") :=
  sendLoop_counts env user (runningDoc c) c.recipients.length

theorem sendHandler_stored (env : Env) (user : User) (id : Nat) (store : Store) (c : Campaign)
    (hs : StoreReliable env) (hf : findOne store id user.id = some c)
    (hv : validate c = none) :
    findOne (sendHandler env user id store).store id user.id = some (finalDoc env user c) := by
  obtain ⟨hid, hu⟩ := findOne_some hf
  obtain ⟨h1, h2, -⟩ := finalDoc_sameDefinition env user c
  rw [sendHandler_ok env user id store c hs hf hv]
  exact findOne_replaceDoc _ id user.id (runningDoc c) _
    (findOne_replaceDoc store id user.id c _ hf hid hu) (h1.trans hid) (h2.trans hu)

theorem ledgerEntry_status (env : Env) (user : User) (c : Campaign) (i : Nat) (r : Recipient) :
    (ledgerEntry env user c i r).status = "success" ∨
      (ledgerEntry env user c i r).status = "failed" := by
  unfold ledgerEntry
  split
  · exact Or.inl rfl
  · exact Or.inr rfl

theorem sendLoop_counter_sum (env : Env) (user : User) (c : Campaign) (k : Nat) :
    (sendLoop env user c k).campaign.successCount + (sendLoop env user c k).campaign.failureCount =
        c.successCount + c.failureCount + (sendLoop env user c k).results.length ∧
    (sendLoop env user c k).results.length ≤ c.recipients.length := by
  induction k with
  | zero => simp [sendLoop]
  | succ k ih =>
    by_cases hlt : k < c.recipients.length
    · rw [sendLoop_succ env user c k hlt, sendStep_campaign, sendStep_results]
      have h := record_counts env user (sendLoop env user c k) k (c.recipients.get ⟨k, hlt⟩)
      have hlen := sendLoop_results env user c k (Nat.le_of_lt hlt)
      have hl : (sendLoop env user c k).results.length = k := by
        rw [hlen, ledgerFrom_length, List.length_take, Nat.min_eq_left (Nat.le_of_lt hlt)]
      rw [h.1, h.2, List.length_append, List.length_singleton]
      have hne : ¬ ("success" = "failed") := by decide
      rcases ledgerEntry_status env user (sendLoop env user c k).campaign k
        (c.recipients.get ⟨k, hlt⟩) with hst | hst
      · rw [hst]
        simp only [if_true, hne, if_false]
        omega
      · rw [hst]
        have hne2 : ¬ ("failed" = "success") := by decide
        simp only [if_true, hne2, if_false]
        omega
    · have hrec : (sendLoop env user c k).campaign.recipients = c.recipients :=
        (sendLoop_sameDefinition env user c k).2.2.2.2.1
      have hnone : (sendLoop env user c k).campaign.recipients[k]? = none := by
        rw [hrec]; exact List.getElem?_eq_none (Nat.le_of_not_lt hlt)
      have hsame : sendLoop env user c (k + 1) = sendLoop env user c k := by
        conv => lhs; unfold sendLoop
        dsimp only
        rw [hnone]
      rw [hsame]
      exact ih

/-! ## Claims -/

/-- C1: for every stored (valid) campaign with a non-empty recipient list and every gateway
behaviour, on a working store, the send operation answers with the campaign, which is also
the stored one, with status `completed` and a results ledger that has one entry per
recipient, the `i`-th entry carrying the phone of the `i`-th recipient. -/
theorem send_ledger_follows_recipients (env : Env) (user : User) (id : Nat) (store : Store)
    (c : Campaign) (hs : StoreReliable env) (hf : findOne store id user.id = some c)
    (hv : validate c = none) (_hne : c.recipients ≠ []) :
    ∃ final : Campaign,
      (sendHandler env user id store).response = .json 200 final ∧
      findOne (sendHandler env user id store).store id user.id = some final ∧
      final.status = .completed ∧
      final.results.length = c.recipients.length ∧
      ∀ i, i < c.recipients.length →
        (final.results[i]?).map (fun e => e.recipient) =
          (c.recipients[i]?).map (fun r => r.phone) := by
  refine ⟨finalDoc env user c, ?_, sendHandler_stored env user id store c hs hf hv,
    finalDoc_status env user c, ?_, ?_⟩
  · rw [sendHandler_ok env user id store c hs hf hv]
  · rw [finalDoc_results, ledgerFrom_length]
  · intro i _
    rw [← List.getElem?_map, ← List.getElem?_map, finalDoc_results, ledgerFrom_map_recipient]

/-- Witness of C1: the two-recipient sample campaign on an accepting gateway. -/
theorem send_ledger_follows_recipients_witness :
    (StoreReliable acceptingEnv ∧
      findOne [sampleCampaign] 7 sampleUser.id = some sampleCampaign ∧
      validate sampleCampaign = none ∧ sampleCampaign.recipients ≠ []) ∧
    ∃ final : Campaign,
      (sendHandler acceptingEnv sampleUser 7 [sampleCampaign]).response = .json 200 final ∧
      findOne (sendHandler acceptingEnv sampleUser 7 [sampleCampaign]).store 7 sampleUser.id =
        some final ∧
      final.status = .completed ∧
      final.results.length = sampleCampaign.recipients.length ∧
      ∀ i, i < sampleCampaign.recipients.length →
        (final.results[i]?).map (fun e => e.recipient) =
          (sampleCampaign.recipients[i]?).map (fun r => r.phone) :=
  ⟨⟨⟨rfl, fun _ => rfl⟩, by decide, by decide, by decide⟩,
    send_ledger_follows_recipients acceptingEnv sampleUser 7 [sampleCampaign] sampleCampaign
      ⟨rfl, fun _ => rfl⟩ (by decide) (by decide) (by decide)⟩

theorem ledgerEntry_status_of_single_failure (env : Env) (user : User) (c : Campaign)
    (k i : Nat) (r : Recipient) (hp : r.phone.isSome)
    (hfail : ∀ req, (env.gateway k req).isSome)
    (hsucc : ∀ i, i ≠ k → ∀ req, env.gateway i req = none) :
    (ledgerEntry env user c i r).status = if i = k then "failed" else "success" := by
  obtain ⟨p, hp⟩ := Option.isSome_iff_exists.mp hp
  unfold ledgerEntry tryDeliver
  rw [hp]
  dsimp only
  by_cases hik : i = k
  · subst hik
    obtain ⟨m, hm⟩ := Option.isSome_iff_exists.mp (hfail (mkRequest env user c r p))
    rw [hm]
    simp
  · rw [hsucc i hik]
    simp [hik]

theorem ledgerFrom_counts_of_single_failure (env : Env) (user : User) (c : Campaign)
    (k : Nat) (hfail : ∀ req, (env.gateway k req).isSome)
    (hsucc : ∀ i, i ≠ k → ∀ req, env.gateway i req = none)
    (i : Nat) (rs : List Recipient) (hp : ∀ r ∈ rs, r.phone.isSome) :
    (ledgerFrom env user c i rs).countP (fun e => e.status = "failed") =
        (if i ≤ k ∧ k < i + rs.length then 1 else 0) ∧
    (ledgerFrom env user c i rs).countP (fun e => e.status = "success") =
        rs.length - (if i ≤ k ∧ k < i + rs.length then 1 else 0) := by
  induction rs generalizing i with
  | nil =>
    simp only [ledgerFrom, List.countP_nil, List.length_nil]
    constructor <;> split_ifs <;> omega
  | cons r rs ih =>
    have hr : r.phone.isSome := hp r (List.mem_cons_self r rs)
    have hrs : ∀ r ∈ rs, r.phone.isSome := fun x hx => hp x (List.mem_cons_of_mem r hx)
    have hst := ledgerEntry_status_of_single_failure env user c k i r hr hfail hsucc
    obtain ⟨ih1, ih2⟩ := ih (i + 1) hrs
    simp only [ledgerFrom, List.countP_cons, ih1, ih2, hst, List.length_cons]
    by_cases hik : i = k
    · subst hik
      simp
    · have h1 : ¬ ("success" = "failed") := by decide
      simp only [hik, if_false, h1, decide_False, decide_True, Bool.false_eq_true, if_true]
      constructor
      · split_ifs <;> omega
      · split_ifs <;> omega

theorem attempt_mem_traceFrom (env : Env) (user : User) (c : Campaign) (i j : Nat)
    (rs : List Recipient) (r : Recipient) (hj : rs[j]? = some r) :
    Event.attempt (i + j) (tryDeliver env user c (i + j) r).1 ∈ traceFrom env user c i rs := by
  induction rs generalizing i j with
  | nil => simp at hj
  | cons a rs ih =>
    cases j with
    | zero =>
      simp only [List.getElem?_cons_zero, Option.some.injEq] at hj
      subst hj
      simp [traceFrom]
    | succ j =>
      simp only [List.getElem?_cons_succ] at hj
      have := ih (i + 1) j hj
      rw [show i + 1 + j = i + (j + 1) by omega] at this
      simp only [traceFrom, List.mem_cons, List.mem_append]
      exact Or.inr (Or.inr this)

theorem sendHandler_trace (env : Env) (user : User) (id : Nat) (store : Store) (c : Campaign)
    (hs : StoreReliable env) (hf : findOne store id user.id = some c)
    (hv : validate c = none) :
    (sendHandler env user id store).trace = traceFrom env user (runningDoc c) 0 c.recipients := by
  rw [sendHandler_ok env user id store c hs hf hv]
  have h := sendLoop_trace env user (runningDoc c) c.recipients.length (Nat.le_refl _)
  have hr : (runningDoc c).recipients = c.recipients := rfl
  rw [hr, List.take_length] at h
  exact h

/-- C2: for every newly created campaign (counters 0) and every index `k` of its recipient
list, on a working store, if the gateway call fails for recipient `k` only and succeeds for
all the others (a call is made for each: every recipient has a phone), then every later
recipient is still attempted with its gateway request, and the send operation ends with
`failureCount = 1`, `successCount = N - 1` and status `completed`. -/
theorem send_survives_single_failure (env : Env) (user : User) (id : Nat) (store : Store)
    (c : Campaign) (k : Nat) (hs : StoreReliable env)
    (hf : findOne store id user.id = some c) (hv : validate c = none)
    (hnew : c.successCount = 0 ∧ c.failureCount = 0) (hk : k < c.recipients.length)
    (hphone : ∀ r ∈ c.recipients, r.phone.isSome)
    (hfail : ∀ req, (env.gateway k req).isSome)
    (hsucc : ∀ i, i ≠ k → ∀ req, env.gateway i req = none) :
    ∃ final : Campaign,
      (sendHandler env user id store).response = .json 200 final ∧
      final.status = .completed ∧
      final.failureCount = 1 ∧
      final.successCount = c.recipients.length - 1 ∧
      ∀ j, k < j → j < c.recipients.length →
        ∃ r p, c.recipients[j]? = some r ∧ r.phone = some p ∧
          Event.attempt j (some (mkRequest env user c r p)) ∈
            (sendHandler env user id store).trace := by
  have hcnt := ledgerFrom_counts_of_single_failure env user (runningDoc c) k hfail hsucc 0
    c.recipients hphone
  have hin : 0 ≤ k ∧ k < 0 + c.recipients.length := ⟨Nat.zero_le k, by omega⟩
  rw [if_pos hin] at hcnt
  obtain ⟨hfc, hsc⟩ := finalDoc_counts env user c
  rw [finalDoc_results] at hfc hsc
  refine ⟨finalDoc env user c, ?_, finalDoc_status env user c, ?_, ?_, ?_⟩
  · rw [sendHandler_ok env user id store c hs hf hv]
  · rw [hsc, hcnt.1, hnew.2]
  · rw [hfc, hcnt.2, hnew.1, Nat.zero_add]
  · intro j _ hj
    have hget : c.recipients[j]? = some (c.recipients.get ⟨j, hj⟩) :=
      List.getElem?_eq_getElem hj
    obtain ⟨p, hp⟩ := Option.isSome_iff_exists.mp
      (hphone _ (List.get_mem c.recipients j hj))
    refine ⟨c.recipients.get ⟨j, hj⟩, p, hget, hp, ?_⟩
    have hmem := attempt_mem_traceFrom env user (runningDoc c) 0 j c.recipients _ hget
    rw [Nat.zero_add] at hmem
    rw [sendHandler_trace env user id store c hs hf hv]
    have hreq : (tryDeliver env user (runningDoc c) j (c.recipients.get ⟨j, hj⟩)).1 =
        some (mkRequest env user c (c.recipients.get ⟨j, hj⟩) p) := by
      unfold tryDeliver
      rw [hp]
      rfl
    rw [hreq] at hmem
    exact hmem

/-- Witness of C2: the first of two calls fails, the second recipient is still attempted. -/
theorem send_survives_single_failure_witness :
    (StoreReliable firstFailsEnv ∧
      findOne [sampleCampaign] 7 sampleUser.id = some sampleCampaign ∧
      validate sampleCampaign = none ∧
      (sampleCampaign.successCount = 0 ∧ sampleCampaign.failureCount = 0) ∧
      0 < sampleCampaign.recipients.length ∧
      (∀ r ∈ sampleCampaign.recipients, r.phone.isSome) ∧
      (∀ req, (firstFailsEnv.gateway 0 req).isSome) ∧
      (∀ i, i ≠ 0 → ∀ req, firstFailsEnv.gateway i req = none)) ∧
    ∃ final : Campaign,
      (sendHandler firstFailsEnv sampleUser 7 [sampleCampaign]).response = .json 200 final ∧
      final.status = .completed ∧
      final.failureCount = 1 ∧
      final.successCount = sampleCampaign.recipients.length - 1 ∧
      ∀ j, 0 < j → j < sampleCampaign.recipients.length →
        ∃ r p, sampleCampaign.recipients[j]? = some r ∧ r.phone = some p ∧
          Event.attempt j (some (mkRequest firstFailsEnv sampleUser sampleCampaign r p)) ∈
            (sendHandler firstFailsEnv sampleUser 7 [sampleCampaign]).trace :=
  ⟨⟨⟨rfl, fun _ => rfl⟩, by decide, by decide, by decide, by decide, by decide,
      fun _ => rfl, fun i hi _ => by simp [firstFailsEnv, hi]⟩,
    send_survives_single_failure firstFailsEnv sampleUser 7 [sampleCampaign] sampleCampaign 0
      ⟨rfl, fun _ => rfl⟩ (by decide) (by decide) (by decide) (by decide) (by decide)
      (fun _ => rfl) (fun i hi _ => by simp [firstFailsEnv, hi])⟩

/-- C3, at the failing input: a campaign that was sent once (two successes, status
`completed`) is sent again on the accepting gateway.  After the first iteration the counters
add up to 3 while the ledger has 1 entry, and the campaign returned has counters that add up
to 4 while its ledger has 2 entries. -/
theorem resend_counters_exceed_ledger :
    ((sendLoop acceptingEnv sampleUser (runningDoc sentCampaign) 1).campaign.successCount = 3 ∧
      (sendLoop acceptingEnv sampleUser (runningDoc sentCampaign) 1).campaign.failureCount = 0 ∧
      (sendLoop acceptingEnv sampleUser (runningDoc sentCampaign) 1).results.length = 1) ∧
    (sendHandler acceptingEnv sampleUser 7 [sentCampaign]).response =
      .json 200
        { id := 7, userId := 1, name := some "spring", message := some "hello",
          recipients := [{ phone := some "111@c.us", name := none, isGroup := none },
                         { phone := some "222@g.us", name := none, isGroup := some true }],
          status := .completed,
          results :=
            [{ recipient := some "111@c.us", status := "success", sentAt := 1000, error := none },
             { recipient := some "222@g.us", status := "success", sentAt := 1001, error := none }],
          totalRecipients := 2, successCount := 4, failureCount := 0, delay := 0 } := by
  decide

theorem save_cases (env : Env) (k : Nat) (d : Campaign) :
    (∃ e, ∀ s, save env k d s = .error e) ∨ (∀ s, save env k d s = .ok (replaceDoc d s)) := by
  unfold save
  cases validate d with
  | some e => exact Or.inl ⟨e, fun _ => rfl⟩
  | none =>
    cases env.saveFault k with
    | some e => exact Or.inl ⟨e, fun _ => rfl⟩
    | none => exact Or.inr (fun _ => rfl)

theorem sendHandler_found (env : Env) (user : User) (id : Nat) (store : Store) (c : Campaign)
    (hff : env.findFault = none) (hf : findOne store id user.id = some c) :
    sendHandler env user id store =
      match save env 0 (runningDoc c) store with
      | .error e =>
        { response := .failure 500 "Failed to send campaign" (some e)
          store := store, trace := [], saved := [] }
      | .ok store1 =>
        match save env 1 (finalDoc env user c) store1 with
        | .error e =>
          { response := .failure 500 "Failed to send campaign" (some e)
            store := store1
            trace := (sendLoop env user (runningDoc c) c.recipients.length).trace
            saved := [runningDoc c] }
        | .ok store2 =>
          { response := .json 200 (finalDoc env user c)
            store := store2
            trace := (sendLoop env user (runningDoc c) c.recipients.length).trace
            saved := [runningDoc c, finalDoc env user c] } := by
  unfold sendHandler
  rw [hff, hf]
  rfl

/-- C4, counterexample: the sample campaign stored with status `running` is sent.  The
request is answered with the campaign (no error), two gateway calls are made, and status,
results and `successCount` of the stored campaign are overwritten. -/
theorem send_running_campaign_is_accepted :
    (sendHandler acceptingEnv sampleUser 7 [runningCampaign]).response =
      .json 200
        { id := 7, userId := 1, name := some "spring", message := some "hello",
          recipients := [{ phone := some "111@c.us", name := none, isGroup := none },
                         { phone := some "222@g.us", name := none, isGroup := some true }],
          status := .completed,
          results :=
            [{ recipient := some "111@c.us", status := "success", sentAt := 1000, error := none },
             { recipient := some "222@g.us", status := "success", sentAt := 1001, error := none }],
          totalRecipients := 2, successCount := 2, failureCount := 0, delay := 0 } ∧
    (gatewayCalls (sendHandler acceptingEnv sampleUser 7 [runningCampaign]).trace).length = 2 ∧
    (findOne (sendHandler acceptingEnv sampleUser 7 [runningCampaign]).store 7 1).map
        (fun d => (d.status, d.results.length, d.successCount)) = some (.completed, 2, 2) ∧
    (runningCampaign.status, runningCampaign.results.length, runningCampaign.successCount) =
      (.running, 0, 0) := by
  decide

/-- C4, amended: the send operation does not look at the stored status.  For every campaign
whose stored status is `running` or `completed`, the response, the trace of attempts and
pauses and the documents saved are those of the same campaign stored as `draft`; on a
working store, for a valid campaign, the request is answered with the campaign, status
`completed`, with one ledger entry per recipient. -/
theorem send_ignores_stored_status (env : Env) (user : User) (id : Nat) (store : Store)
    (c : Campaign) (hf : findOne store id user.id = some c)
    (_hst : c.status = .running ∨ c.status = .completed) :
    ((sendHandler env user id store).response =
        (sendHandler env user id [{ c with status := .draft }]).response ∧
      (sendHandler env user id store).trace =
        (sendHandler env user id [{ c with status := .draft }]).trace ∧
      (sendHandler env user id store).saved =
        (sendHandler env user id [{ c with status := .draft }]).saved) ∧
    (StoreReliable env → validate c = none →
      ∃ final : Campaign,
        (sendHandler env user id store).response = .json 200 final ∧
        final.status = .completed ∧ final.results.length = c.recipients.length) := by
  obtain ⟨hid, hu⟩ := findOne_some hf
  have hsingle : findOne [{ c with status := .draft }] id user.id =
      some { c with status := .draft } := by
    simp [findOne, hid, hu]
  constructor
  · cases hff : env.findFault with
    | some e =>
      unfold sendHandler
      rw [hff]
      exact ⟨rfl, rfl, rfl⟩
    | none =>
      rw [sendHandler_found env user id store c hff hf,
        sendHandler_found env user id _ _ hff hsingle]
      have hrun : runningDoc { c with status := .draft } = runningDoc c := rfl
      have hfin : finalDoc env user { c with status := .draft } = finalDoc env user c := rfl
      rw [hrun, hfin]
      rcases save_cases env 0 (runningDoc c) with ⟨e, he⟩ | hok
      · rw [he, he]
        exact ⟨rfl, rfl, rfl⟩
      · rw [hok, hok]
        dsimp only
        rcases save_cases env 1 (finalDoc env user c) with ⟨e, he⟩ | hok1
        · rw [he, he]
          exact ⟨rfl, rfl, rfl⟩
        · rw [hok1, hok1]
          exact ⟨rfl, rfl, rfl⟩
  · intro hs hv
    refine ⟨finalDoc env user c, ?_, finalDoc_status env user c, ?_⟩
    · rw [sendHandler_ok env user id store c hs hf hv]
    · rw [finalDoc_results, ledgerFrom_length]

/-- Witness of C4 (amended): the sample campaign stored with status `running`. -/
theorem send_ignores_stored_status_witness :
    (findOne [runningCampaign] 7 sampleUser.id = some runningCampaign ∧
      (runningCampaign.status = .running ∨ runningCampaign.status = .completed)) ∧
    ((sendHandler acceptingEnv sampleUser 7 [runningCampaign]).response =
        (sendHandler acceptingEnv sampleUser 7 [{ runningCampaign with status := .draft }]).response ∧
      (sendHandler acceptingEnv sampleUser 7 [runningCampaign]).trace =
        (sendHandler acceptingEnv sampleUser 7 [{ runningCampaign with status := .draft }]).trace ∧
      (sendHandler acceptingEnv sampleUser 7 [runningCampaign]).saved =
        (sendHandler acceptingEnv sampleUser 7 [{ runningCampaign with status := .draft }]).saved) ∧
    (StoreReliable acceptingEnv → validate runningCampaign = none →
      ∃ final : Campaign,
        (sendHandler acceptingEnv sampleUser 7 [runningCampaign]).response = .json 200 final ∧
        final.status = .completed ∧
        final.results.length = runningCampaign.recipients.length) :=
  ⟨⟨by decide, by decide⟩,
    send_ignores_stored_status acceptingEnv sampleUser 7 [runningCampaign] runningCampaign
      (by decide) (by decide)⟩

/-- C5, counterexample: a draft campaign without recipients is sent.  The request is
answered with the campaign, whose status is now `completed`, and so is the stored one. -/
theorem send_empty_campaign_is_accepted :
    emptyCampaign.status = .draft ∧ emptyCampaign.recipients = [] ∧
    (sendHandler acceptingEnv sampleUser 7 [emptyCampaign]).response =
      .json 200
        { id := 7, userId := 1, name := some "spring", message := some "hello",
          recipients := [], status := .completed, results := [],
          totalRecipients := 0, successCount := 0, failureCount := 0, delay := 0 } ∧
    (findOne (sendHandler acceptingEnv sampleUser 7 [emptyCampaign]).store 7 1).map
        (fun d => d.status) = some .completed := by
  decide

/-- C5, amended: for every (valid) campaign in status `draft` whose recipient list is
empty, on a working store, the send operation is not rejected: it makes no attempt and no
pause, and answers with the campaign with status `completed`, an empty ledger and the
counters it had; this is also the stored campaign afterwards. -/
theorem send_empty_campaign_completes (env : Env) (user : User) (id : Nat) (store : Store)
    (c : Campaign) (hs : StoreReliable env) (hf : findOne store id user.id = some c)
    (hv : validate c = none) (_hd : c.status = .draft) (he : c.recipients = []) :
    (sendHandler env user id store).response =
      .json 200 { c with status := .completed, results := [] } ∧
    (sendHandler env user id store).trace = [] ∧
    findOne (sendHandler env user id store).store id user.id =
      some { c with status := .completed, results := [] } := by
  have hfinal : finalDoc env user c = { c with status := .completed, results := [] } := by
    have hlen : c.recipients.length = 0 := by rw [he]; rfl
    unfold finalDoc
    rw [hlen]
    rfl
  have hstored := sendHandler_stored env user id store c hs hf hv
  rw [hfinal] at hstored
  refine ⟨?_, ?_, hstored⟩
  · rw [sendHandler_ok env user id store c hs hf hv, hfinal]
  · rw [sendHandler_trace env user id store c hs hf hv, he]
    rfl

/-- Witness of C5 (amended): the draft campaign without recipients. -/
theorem send_empty_campaign_completes_witness :
    (StoreReliable acceptingEnv ∧
      findOne [emptyCampaign] 7 sampleUser.id = some emptyCampaign ∧
      validate emptyCampaign = none ∧ emptyCampaign.status = .draft ∧
      emptyCampaign.recipients = []) ∧
    (sendHandler acceptingEnv sampleUser 7 [emptyCampaign]).response =
      .json 200 { emptyCampaign with status := .completed, results := [] } ∧
    (sendHandler acceptingEnv sampleUser 7 [emptyCampaign]).trace = [] ∧
    findOne (sendHandler acceptingEnv sampleUser 7 [emptyCampaign]).store 7 sampleUser.id =
      some { emptyCampaign with status := .completed, results := [] } :=
  ⟨⟨⟨rfl, fun _ => rfl⟩, by decide, by decide, by decide, by decide⟩,
    send_empty_campaign_completes acceptingEnv sampleUser 7 [emptyCampaign] emptyCampaign
      ⟨rfl, fun _ => rfl⟩ (by decide) (by decide) (by decide) (by decide)⟩

/-- C6, counterexample: a campaign with status `completed` is sent again; the first document
the request saves has status `running`.  A campaign with status `failed` is sent; it is
saved as `running` and ends as `completed`. -/
theorem resend_moves_status_back :
    sentCampaign.status = .completed ∧
    (sendHandler acceptingEnv sampleUser 7 [sentCampaign]).saved.map (fun d => d.status) =
      [.running, .completed] ∧
    failedCampaign.status = .failed ∧
    (sendHandler acceptingEnv sampleUser 7 [failedCampaign]).saved.map (fun d => d.status) =
      [.running, .completed] ∧
    (findOne (sendHandler acceptingEnv sampleUser 7 [failedCampaign]).store 7 1).map
      (fun d => d.status) = some .completed := by
  decide

/-- C6, amended: a send request writes no status other than `running` and `completed`.  The
documents it saves are, in order, the campaign with status `running` (before the loop,
whatever the stored status was) and the campaign with status `completed` (after the loop), as
far as the saves succeed; on a working store every valid campaign, also one stored as
`completed` or `failed`, is saved as `running` and then as `completed`, and is stored as
`completed` afterwards. -/
theorem send_saves_running_then_completed (env : Env) (user : User) (id : Nat) (store : Store) :
    ((sendHandler env user id store).saved.map (fun d => d.status) = [] ∨
      (sendHandler env user id store).saved.map (fun d => d.status) = [.running] ∨
      (sendHandler env user id store).saved.map (fun d => d.status) = [.running, .completed]) ∧
    ∀ c, findOne store id user.id = some c → StoreReliable env → validate c = none →
      (sendHandler env user id store).saved.map (fun d => d.status) = [.running, .completed] ∧
      (findOne (sendHandler env user id store).store id user.id).map (fun d => d.status) =
        some .completed := by
  constructor
  · cases hff : env.findFault with
    | some e =>
      unfold sendHandler
      rw [hff]
      exact Or.inl rfl
    | none =>
      cases hf : findOne store id user.id with
      | none =>
        unfold sendHandler
        rw [hff, hf]
        exact Or.inl rfl
      | some c =>
        rw [sendHandler_found env user id store c hff hf]
        rcases save_cases env 0 (runningDoc c) with ⟨e, he⟩ | hok
        · rw [he]
          exact Or.inl rfl
        · rw [hok]
          dsimp only
          rcases save_cases env 1 (finalDoc env user c) with ⟨e, he⟩ | hok1
          · rw [he]
            exact Or.inr (Or.inl rfl)
          · rw [hok1]
            exact Or.inr (Or.inr rfl)
  · intro c hf hs hv
    constructor
    · rw [sendHandler_ok env user id store c hs hf hv]
      rfl
    · rw [sendHandler_stored env user id store c hs hf hv]
      rfl

/-- Witness of C6 (amended): the campaign stored as `completed` is sent again. -/
theorem send_saves_running_then_completed_witness :
    (findOne [sentCampaign] 7 sampleUser.id = some sentCampaign ∧
      StoreReliable acceptingEnv ∧ validate sentCampaign = none) ∧
    (sendHandler acceptingEnv sampleUser 7 [sentCampaign]).saved.map (fun d => d.status) =
      [.running, .completed] ∧
    (findOne (sendHandler acceptingEnv sampleUser 7 [sentCampaign]).store 7 sampleUser.id).map
      (fun d => d.status) = some .completed :=
  ⟨⟨by decide, ⟨rfl, fun _ => rfl⟩, by decide⟩,
    (send_saves_running_then_completed acceptingEnv sampleUser 7 [sentCampaign]).2 sentCampaign
      (by decide) ⟨rfl, fun _ => rfl⟩ (by decide)⟩

/-- C7: for every stored (valid) campaign and every gateway behaviour, on a working store,
the campaign the send operation returns and stores after the loop has status `completed`,
not `failed`, however many entries of its ledger are failures; the ledger has one entry per
recipient. -/
theorem send_completes_whatever_fails (env : Env) (user : User) (id : Nat) (store : Store)
    (c : Campaign) (hs : StoreReliable env) (hf : findOne store id user.id = some c)
    (hv : validate c = none) :
    ∃ final : Campaign,
      (sendHandler env user id store).response = .json 200 final ∧
      findOne (sendHandler env user id store).store id user.id = some final ∧
      final.results.length = c.recipients.length ∧
      final.status = .completed ∧ final.status ≠ .failed := by
  refine ⟨finalDoc env user c, ?_, sendHandler_stored env user id store c hs hf hv, ?_,
    finalDoc_status env user c, ?_⟩
  · rw [sendHandler_ok env user id store c hs hf hv]
  · rw [finalDoc_results, ledgerFrom_length]
  · rw [finalDoc_status]
    decide

/-- Witness of C7: the gateway fails every call, the campaign ends `completed`. -/
theorem send_completes_whatever_fails_witness :
    (StoreReliable rejectingEnv ∧
      findOne [sampleCampaign] 7 sampleUser.id = some sampleCampaign ∧
      validate sampleCampaign = none) ∧
    ∃ final : Campaign,
      (sendHandler rejectingEnv sampleUser 7 [sampleCampaign]).response = .json 200 final ∧
      findOne (sendHandler rejectingEnv sampleUser 7 [sampleCampaign]).store 7 sampleUser.id =
        some final ∧
      final.results.length = sampleCampaign.recipients.length ∧
      final.status = .completed ∧ final.status ≠ .failed :=
  ⟨⟨⟨rfl, fun _ => rfl⟩, by decide, by decide⟩,
    send_completes_whatever_fails rejectingEnv sampleUser 7 [sampleCampaign] sampleCampaign
      ⟨rfl, fun _ => rfl⟩ (by decide) (by decide)⟩

/-! ## Gateway calls and pauses of a trace -/

theorem tryDeliver_fst (env : Env) (user : User) (c : Campaign) (i : Nat) (r : Recipient) :
    (tryDeliver env user c i r).1 = r.phone.map (mkRequest env user c r) := by
  unfold tryDeliver
  cases r.phone <;> rfl

theorem gatewayCalls_attempt (i : Nat) (x : Option GatewayRequest) (rest : List Event) :
    gatewayCalls (.attempt i x :: rest) = x.toList ++ gatewayCalls rest := by
  cases x <;> rfl

theorem gatewayCalls_traceFrom (env : Env) (user : User) (c : Campaign) (i : Nat)
    (rs : List Recipient) :
    gatewayCalls (traceFrom env user c i rs) =
      rs.filterMap (fun r => r.phone.map (mkRequest env user c r)) := by
  induction rs generalizing i with
  | nil => rfl
  | cons r rs ih =>
    rw [traceFrom, gatewayCalls_attempt, tryDeliver_fst, List.filterMap_cons]
    have hrest : gatewayCalls ((if i < c.recipients.length - 1 then [Event.pause c.delay] else [])
        ++ traceFrom env user c (i + 1) rs) = gatewayCalls (traceFrom env user c (i + 1) rs) := by
      split <;> rfl
    rw [hrest, ih]
    cases r.phone <;> rfl

theorem traceFrom_cons (env : Env) (user : User) (c : Campaign) (i : Nat) (r : Recipient)
    (rs : List Recipient) :
    traceFrom env user c i (r :: rs) =
      .attempt i (tryDeliver env user c i r).1 ::
        ((if i < c.recipients.length - 1 then [.pause c.delay] else []) ++
          traceFrom env user c (i + 1) rs) := rfl

theorem filterMap_length_eq_countP {α β : Type} (f : α → Option β) (l : List α) :
    (l.filterMap f).length = l.countP (fun a => (f a).isSome) := by
  induction l with
  | nil => rfl
  | cons a l ih =>
    rw [List.filterMap_cons, List.countP_cons]
    cases h : f a <;> simp [ih]

theorem pauses_traceFrom (env : Env) (user : User) (c : Campaign) (i : Nat)
    (rs : List Recipient) (h : i + rs.length = c.recipients.length) :
    pauses (traceFrom env user c i rs) = List.replicate (rs.length - 1) c.delay := by
  induction rs generalizing i with
  | nil => rfl
  | cons r rs ih =>
    cases rs with
    | nil =>
      have hlast : ¬ i < c.recipients.length - 1 := by
        simp only [List.length_cons, List.length_nil] at h
        omega
      simp [traceFrom, hlast, pauses]
    | cons r₂ rs =>
      have hmore : i < c.recipients.length - 1 := by
        simp only [List.length_cons] at h
        omega
      have hnext := ih (i + 1) (by simp only [List.length_cons] at h ⊢; omega)
      rw [traceFrom_cons, if_pos hmore]
      change c.delay :: pauses (traceFrom env user c (i + 1) (r₂ :: rs)) =
        List.replicate (rs.length + 1) c.delay
      rw [hnext]
      rfl

theorem traceFrom_eq_intersperse (env : Env) (user : User) (c : Campaign) (i : Nat)
    (rs : List Recipient) (h : i + rs.length = c.recipients.length) :
    traceFrom env user c i rs =
      (attemptsFrom env user c i rs).intersperse (.pause c.delay) := by
  induction rs generalizing i with
  | nil => rfl
  | cons r rs ih =>
    cases rs with
    | nil =>
      have hlast : ¬ i < c.recipients.length - 1 := by
        simp only [List.length_cons, List.length_nil] at h
        omega
      simp [traceFrom, attemptsFrom, hlast]
    | cons r₂ rs =>
      have hmore : i < c.recipients.length - 1 := by
        simp only [List.length_cons] at h
        omega
      have hnext := ih (i + 1) (by simp only [List.length_cons] at h ⊢; omega)
      rw [traceFrom_cons, if_pos hmore, hnext]
      rfl

theorem attemptsFrom_length (env : Env) (user : User) (c : Campaign) (i : Nat)
    (rs : List Recipient) : (attemptsFrom env user c i rs).length = rs.length := by
  induction rs generalizing i with
  | nil => rfl
  | cons r rs ih => simp [attemptsFrom, ih]

theorem attemptsFrom_getElem (env : Env) (user : User) (c : Campaign) (i j : Nat)
    (rs : List Recipient) (r : Recipient) (hj : rs[j]? = some r) :
    (attemptsFrom env user c i rs)[j]? =
      some (.attempt (i + j) (r.phone.map (mkRequest env user c r))) := by
  induction rs generalizing i j with
  | nil => simp at hj
  | cons a rs ih =>
    cases j with
    | zero =>
      simp only [List.getElem?_cons_zero, Option.some.injEq] at hj
      subst hj
      simp [attemptsFrom, tryDeliver_fst]
    | succ j =>
      simp only [List.getElem?_cons_succ] at hj
      have := ih (i + 1) j hj
      rw [show i + 1 + j = i + (j + 1) by omega] at this
      simpa [attemptsFrom] using this

theorem traceFrom_congr (env : Env) (user : User) (a b : Campaign) (i : Nat)
    (rs : List Recipient) (hm : a.message = b.message) (hr : a.recipients = b.recipients)
    (hd : a.delay = b.delay) : traceFrom env user a i rs = traceFrom env user b i rs := by
  induction rs generalizing i with
  | nil => rfl
  | cons r rs ih => rw [traceFrom, traceFrom, ih, tryDeliver_congr env user a b i r hm, hr, hd]

theorem traceFrom_getLast (env : Env) (user : User) (c : Campaign) (i : Nat)
    (rs : List Recipient) (hne : rs ≠ []) (h : i + rs.length = c.recipients.length) :
    ∃ x, (traceFrom env user c i rs).getLast? = some (.attempt (c.recipients.length - 1) x) := by
  induction rs generalizing i with
  | nil => exact absurd rfl hne
  | cons r rs ih =>
    cases rs with
    | nil =>
      have hlast : ¬ i < c.recipients.length - 1 := by
        simp only [List.length_cons, List.length_nil] at h
        omega
      have hi : c.recipients.length - 1 = i := by
        simp only [List.length_cons, List.length_nil] at h
        omega
      refine ⟨(tryDeliver env user c i r).1, ?_⟩
      rw [traceFrom_cons, if_neg hlast, hi]
      rfl
    | cons r₂ rs =>
      have hmore : i < c.recipients.length - 1 := by
        simp only [List.length_cons] at h
        omega
      obtain ⟨x, hx⟩ := ih (i + 1) (List.cons_ne_nil r₂ rs)
        (by simp only [List.length_cons] at h ⊢; omega)
      refine ⟨x, ?_⟩
      rw [traceFrom_cons, if_pos hmore]
      rw [traceFrom_cons] at hx ⊢
      exact hx

/-- C8, counterexample: a campaign whose only recipient has no phone is sent.  The `try` block
throws before the gateway is called: the ledger gets a failed entry for the recipient, and
no gateway call is made, one less than there are recipients. -/
theorem send_without_phone_makes_no_call :
    noPhoneCampaign.recipients.length = 1 ∧
    gatewayCalls (sendHandler acceptingEnv sampleUser 7 [noPhoneCampaign]).trace = [] ∧
    (sendHandler acceptingEnv sampleUser 7 [noPhoneCampaign]).trace = [.attempt 0 none] ∧
    (sendHandler acceptingEnv sampleUser 7 [noPhoneCampaign]).saved.map
        (fun d => (d.status, d.failureCount,
          d.results.map (fun e => (e.recipient, e.status)))) =
      [(.running, 0, []), (.completed, 1, [(none, "failed")])] := by
  decide

/-- C8, amended: for every stored (valid) campaign and every gateway behaviour, on a working
store, the gateway calls of one send operation are exactly one call per recipient that has a
phone, in recipient order (a phone listed twice is called twice); a recipient without a
phone gets no call.  The calls do not depend on the outcomes: another gateway behaviour
gives the same calls, so a failed call is not repeated.  The number of calls is the number
of recipients that have a phone, hence the number of recipients when all of them have
one. -/
theorem send_calls_once_per_phone (env : Env) (user : User) (id : Nat) (store : Store)
    (c : Campaign) (hs : StoreReliable env) (hf : findOne store id user.id = some c)
    (hv : validate c = none) :
    gatewayCalls (sendHandler env user id store).trace = requestsOf env user c ∧
    (∀ other : Env, other.apiUrl = env.apiUrl → StoreReliable other →
      gatewayCalls (sendHandler other user id store).trace =
        gatewayCalls (sendHandler env user id store).trace) ∧
    (gatewayCalls (sendHandler env user id store).trace).length =
      c.recipients.countP (fun r => r.phone.isSome) ∧
    ((∀ r ∈ c.recipients, r.phone.isSome) →
      (gatewayCalls (sendHandler env user id store).trace).length = c.recipients.length) := by
  have hcalls : ∀ e : Env, StoreReliable e →
      gatewayCalls (sendHandler e user id store).trace = requestsOf e user c := by
    intro e he
    rw [sendHandler_trace e user id store c he hf hv, gatewayCalls_traceFrom]
    rfl
  have hlen : (requestsOf env user c).length = c.recipients.countP (fun r => r.phone.isSome) := by
    unfold requestsOf
    rw [filterMap_length_eq_countP]
    congr 1
    funext r
    cases r.phone <;> rfl
  refine ⟨hcalls env hs, ?_, ?_, ?_⟩
  · intro other hurl ho
    rw [hcalls env hs, hcalls other ho]
    unfold requestsOf mkRequest
    rw [hurl]
  · rw [hcalls env hs, hlen]
  · intro hall
    rw [hcalls env hs, hlen, List.countP_eq_length]
    intro r hr
    simpa using hall r hr

/-- Witness of C8 (amended): the sample campaign, twice the same gateway requests whether
the gateway accepts or fails the calls. -/
theorem send_calls_once_per_phone_witness :
    (StoreReliable rejectingEnv ∧
      findOne [sampleCampaign] 7 sampleUser.id = some sampleCampaign ∧
      validate sampleCampaign = none) ∧
    gatewayCalls (sendHandler rejectingEnv sampleUser 7 [sampleCampaign]).trace =
      requestsOf rejectingEnv sampleUser sampleCampaign ∧
    (∀ other : Env, other.apiUrl = rejectingEnv.apiUrl → StoreReliable other →
      gatewayCalls (sendHandler other sampleUser 7 [sampleCampaign]).trace =
        gatewayCalls (sendHandler rejectingEnv sampleUser 7 [sampleCampaign]).trace) ∧
    (gatewayCalls (sendHandler rejectingEnv sampleUser 7 [sampleCampaign]).trace).length =
      sampleCampaign.recipients.countP (fun r => r.phone.isSome) ∧
    ((∀ r ∈ sampleCampaign.recipients, r.phone.isSome) →
      (gatewayCalls (sendHandler rejectingEnv sampleUser 7 [sampleCampaign]).trace).length =
        sampleCampaign.recipients.length) :=
  ⟨⟨⟨rfl, fun _ => rfl⟩, by decide, by decide⟩,
    send_calls_once_per_phone rejectingEnv sampleUser 7 [sampleCampaign] sampleCampaign
      ⟨rfl, fun _ => rfl⟩ (by decide) (by decide)⟩

/-- C9: for every stored (valid) campaign with `N ≥ 1` recipients and delay `D`, on a working
store and whatever the gateway answers, the trace of one send operation is the list of the
`N` attempts (the `j`-th one for the `j`-th recipient) with one pause of `D` between two
consecutive attempts: it starts with the attempt `0`, ends with the attempt `N - 1`, has
exactly `N - 1` pauses, each of `D`, and the pauses add up to `(N - 1) * D`. -/
theorem send_trace_alternates (env : Env) (user : User) (id : Nat) (store : Store)
    (c : Campaign) (hs : StoreReliable env) (hf : findOne store id user.id = some c)
    (hv : validate c = none) (hN : 1 ≤ c.recipients.length) :
    (sendHandler env user id store).trace =
      (attemptsFrom env user (runningDoc c) 0 c.recipients).intersperse (.pause c.delay) ∧
    (attemptsFrom env user (runningDoc c) 0 c.recipients).length = c.recipients.length ∧
    (∀ (j : Nat) (r : Recipient), c.recipients[j]? = some r →
      (attemptsFrom env user (runningDoc c) 0 c.recipients)[j]? =
        some (.attempt j (r.phone.map (mkRequest env user c r)))) ∧
    (∃ x, (sendHandler env user id store).trace.head? = some (.attempt 0 x)) ∧
    (∃ x, (sendHandler env user id store).trace.getLast? =
      some (.attempt (c.recipients.length - 1) x)) ∧
    pauses (sendHandler env user id store).trace =
      List.replicate (c.recipients.length - 1) c.delay ∧
    (pauses (sendHandler env user id store).trace).sum =
      ((c.recipients.length - 1 : Nat) : Int) * c.delay := by
  have htrace := sendHandler_trace env user id store c hs hf hv
  have hlen : 0 + c.recipients.length = (runningDoc c).recipients.length := Nat.zero_add _
  have hp := pauses_traceFrom env user (runningDoc c) 0 c.recipients hlen
  have hne : c.recipients ≠ [] := by
    intro h
    rw [h] at hN
    exact absurd hN (by decide)
  refine ⟨?_, attemptsFrom_length _ _ _ _ _, ?_, ?_, ?_, ?_, ?_⟩
  · rw [htrace, traceFrom_eq_intersperse env user (runningDoc c) 0 c.recipients hlen]
    rfl
  · intro j r hj
    have := attemptsFrom_getElem env user (runningDoc c) 0 j c.recipients r hj
    rw [Nat.zero_add] at this
    exact this
  · rw [htrace]
    cases hrec : c.recipients with
    | nil => exact absurd hrec hne
    | cons r rs => exact ⟨_, rfl⟩
  · rw [htrace]
    exact traceFrom_getLast env user (runningDoc c) 0 c.recipients hne hlen
  · rw [htrace, hp]
    rfl
  · rw [htrace, hp]
    have hd : (runningDoc c).delay = c.delay := rfl
    rw [hd, List.sum_replicate, nsmul_eq_mul]

/-- Witness of C9: the sample campaign, two attempts and one pause between them. -/
theorem send_trace_alternates_witness :
    (StoreReliable rejectingEnv ∧
      findOne [sampleCampaign] 7 sampleUser.id = some sampleCampaign ∧
      validate sampleCampaign = none ∧ 1 ≤ sampleCampaign.recipients.length) ∧
    (sendHandler rejectingEnv sampleUser 7 [sampleCampaign]).trace =
      (attemptsFrom rejectingEnv sampleUser (runningDoc sampleCampaign) 0
        sampleCampaign.recipients).intersperse (.pause sampleCampaign.delay) ∧
    (attemptsFrom rejectingEnv sampleUser (runningDoc sampleCampaign) 0
      sampleCampaign.recipients).length = sampleCampaign.recipients.length ∧
    (∀ (j : Nat) (r : Recipient), sampleCampaign.recipients[j]? = some r →
      (attemptsFrom rejectingEnv sampleUser (runningDoc sampleCampaign) 0
          sampleCampaign.recipients)[j]? =
        some (.attempt j (r.phone.map (mkRequest rejectingEnv sampleUser sampleCampaign r)))) ∧
    (∃ x, (sendHandler rejectingEnv sampleUser 7 [sampleCampaign]).trace.head? =
      some (.attempt 0 x)) ∧
    (∃ x, (sendHandler rejectingEnv sampleUser 7 [sampleCampaign]).trace.getLast? =
      some (.attempt (sampleCampaign.recipients.length - 1) x)) ∧
    pauses (sendHandler rejectingEnv sampleUser 7 [sampleCampaign]).trace =
      List.replicate (sampleCampaign.recipients.length - 1) sampleCampaign.delay ∧
    (pauses (sendHandler rejectingEnv sampleUser 7 [sampleCampaign]).trace).sum =
      ((sampleCampaign.recipients.length - 1 : Nat) : Int) * sampleCampaign.delay :=
  ⟨⟨⟨rfl, fun _ => rfl⟩, by decide, by decide, by decide⟩,
    send_trace_alternates rejectingEnv sampleUser 7 [sampleCampaign] sampleCampaign
      ⟨rfl, fun _ => rfl⟩ (by decide) (by decide) (by decide)⟩

theorem pauses_traceFrom_mem (env : Env) (user : User) (c : Campaign) (i : Nat)
    (rs : List Recipient) : ∀ ms ∈ pauses (traceFrom env user c i rs), ms = c.delay := by
  induction rs generalizing i with
  | nil =>
    intro ms hms
    cases hms
  | cons r rs ih =>
    intro ms hms
    rw [traceFrom_cons] at hms
    by_cases hmore : i < c.recipients.length - 1
    · rw [if_pos hmore] at hms
      change ms ∈ c.delay :: pauses (traceFrom env user c (i + 1) rs) at hms
      rcases List.mem_cons.mp hms with h | h
      · exact h
      · exact ih (i + 1) ms h
    · rw [if_neg hmore] at hms
      exact ih (i + 1) ms hms

theorem sendHandler_pauses (env : Env) (user : User) (id : Nat) (store : Store) (c : Campaign)
    (hf : findOne store id user.id = some c) :
    ∀ ms ∈ pauses (sendHandler env user id store).trace, ms = c.delay := by
  have hloop : ∀ ms ∈ pauses (sendLoop env user (runningDoc c) c.recipients.length).trace,
      ms = c.delay := by
    have h := sendLoop_trace env user (runningDoc c) c.recipients.length (Nat.le_refl _)
    have hr : (runningDoc c).recipients = c.recipients := rfl
    rw [hr, List.take_length] at h
    rw [h]
    exact pauses_traceFrom_mem env user (runningDoc c) 0 c.recipients
  cases hff : env.findFault with
  | some e =>
    unfold sendHandler
    rw [hff]
    intro ms hms
    cases hms
  | none =>
    rw [sendHandler_found env user id store c hff hf]
    rcases save_cases env 0 (runningDoc c) with ⟨e, he⟩ | hok
    · rw [he]
      intro ms hms
      cases hms
    · rw [hok]
      dsimp only
      rcases save_cases env 1 (finalDoc env user c) with ⟨e, he⟩ | hok1
      · rw [he]
        exact hloop
      · rw [hok1]
        exact hloop

/-- C10, counterexample: a campaign is created with the delay `0`.  The stored campaign has
the delay `3000`, and the pause of its send operation lasts `3000`, not `0`. -/
theorem create_replaces_zero_delay :
    zeroDelayBody.delay = some 0 ∧
    createHandler acceptingEnv sampleUser 9 zeroDelayBody [] =
      (.json 201
        { id := 9, userId := 1, name := some "spring", message := some "hello",
          recipients := [{ phone := some "111@c.us", name := none, isGroup := none },
                         { phone := some "222@g.us", name := none, isGroup := some true }],
          status := .draft, results := [], totalRecipients := 2, successCount := 0,
          failureCount := 0, delay := 3000 },
       [{ id := 9, userId := 1, name := some "spring", message := some "hello",
          recipients := [{ phone := some "111@c.us", name := none, isGroup := none },
                         { phone := some "222@g.us", name := none, isGroup := some true }],
          status := .draft, results := [], totalRecipients := 2, successCount := 0,
          failureCount := 0, delay := 3000 }]) ∧
    pauses (sendHandler acceptingEnv sampleUser 9
      (createHandler acceptingEnv sampleUser 9 zeroDelayBody []).2).trace = [3000] := by
  decide

/-- C10, amended: for every positive delay `d` given when the campaign is created that is a
whole number of milliseconds of at most `2^31 - 1` (the largest delay the timer takes as
given), also outside the values the form offers, the campaign is stored with delay `d`; the
delay `0` is not kept, the campaign is stored with delay `3000`.  Every pause of the send
operation of the created campaign lasts exactly the stored delay, which lies in the range
the timer takes as given. -/
theorem create_keeps_positive_delay (env : Env) (user : User) (newId : Nat) (body : CreateBody)
    (store : Store) (recipients : List Recipient) (d : Int)
    (hrec : body.recipients = some recipients) (hd : body.delay = some d) (hnn : 0 ≤ d)
    (hmax : d ≤ maxTimerDelay)
    (hname : requiredString body.name = true) (hmsg : requiredString body.message = true)
    (hsave : env.saveFault 0 = none) :
    ∃ c : Campaign,
      createHandler env user newId body store = (.json 201 c, store ++ [c]) ∧
      (0 < d → c.delay = d) ∧ (d = 0 → c.delay = 3000) ∧
      (0 < c.delay ∧ c.delay ≤ maxTimerDelay) ∧
      ∀ (env2 : Env) (store2 : Store), findOne store2 newId user.id = some c →
        ∀ ms ∈ pauses (sendHandler env2 user newId store2).trace, ms = c.delay := by
  have hv : validate (newCampaign user newId body recipients) = none := by
    unfold validate newCampaign
    simp [hname, hmsg]
  have hpos : 0 < d → (newCampaign user newId body recipients).delay = d := by
    intro hpos
    have hne : d ≠ 0 := by omega
    unfold newCampaign delayOrDefault
    rw [hd]
    simp [hne]
  have hzero : d = 0 → (newCampaign user newId body recipients).delay = 3000 := by
    intro hzero
    unfold newCampaign delayOrDefault
    rw [hd]
    simp [hzero]
  refine ⟨newCampaign user newId body recipients, ?_, hpos, hzero, ?_, ?_⟩
  · unfold createHandler saveNew
    rw [hrec]
    dsimp only
    rw [hv, hsave]
  · unfold maxTimerDelay at hmax ⊢
    by_cases h0 : d = 0
    · rw [hzero h0]
      decide
    · have hp : 0 < d := by omega
      rw [hpos hp]
      exact ⟨hp, hmax⟩
  · intro env2 store2 hf
    exact sendHandler_pauses env2 user newId store2 _ hf

/-- Witness of C10 (amended): a campaign created with the delay `250`. -/
theorem create_keeps_positive_delay_witness :
    (shortDelayBody.recipients = some sampleCampaign.recipients ∧
      shortDelayBody.delay = some 250 ∧ (0 : Int) ≤ 250 ∧ (250 : Int) ≤ maxTimerDelay ∧
      requiredString shortDelayBody.name = true ∧
      requiredString shortDelayBody.message = true ∧ acceptingEnv.saveFault 0 = none) ∧
    ∃ c : Campaign,
      createHandler acceptingEnv sampleUser 9 shortDelayBody [] = (.json 201 c, [] ++ [c]) ∧
      ((0 : Int) < 250 → c.delay = 250) ∧ ((250 : Int) = 0 → c.delay = 3000) ∧
      (0 < c.delay ∧ c.delay ≤ maxTimerDelay) ∧
      ∀ (env2 : Env) (store2 : Store), findOne store2 9 sampleUser.id = some c →
        ∀ ms ∈ pauses (sendHandler env2 sampleUser 9 store2).trace, ms = c.delay :=
  ⟨⟨by decide, by decide, by decide, by decide, by decide, by decide, rfl⟩,
    create_keeps_positive_delay acceptingEnv sampleUser 9 shortDelayBody []
      sampleCampaign.recipients 250 (by decide) (by decide) (by decide) (by decide)
      (by decide) (by decide) rfl⟩

/-! ## Phone normalisation -/

theorem removeFirst_of_not_includes (pat s : List Char) (h : includesChars pat s = false) :
    removeFirst pat s = s := by
  induction s with
  | nil => rfl
  | cons c cs ih =>
    simp only [includesChars, Bool.or_eq_false_iff] at h
    simp only [removeFirst, h.1, Bool.false_eq_true, if_false, ih h.2]

theorem marker_not_straddling (pat suffix : List Char) (c : Char) (cs : List Char)
    (hp : pat = "@c.us".toList ∨ pat = "@g.us".toList)
    (hs : suffix = "@c.us".toList ∨ suffix = "@g.us".toList)
    (h : pat.isPrefixOf (c :: cs) = false) :
    pat.isPrefixOf (c :: cs ++ suffix) = false := by
  rcases hp with hp | hp <;> subst hp <;> rcases hs with hs | hs <;> subst hs <;>
  rcases cs with _ | ⟨d, _ | ⟨e, _ | ⟨f, _ | ⟨g, rest⟩⟩⟩⟩ <;>
  simp [List.isPrefixOf] at h ⊢ <;> first | done | exact h

theorem includesChars_append_marker (pat suffix : List Char) (p : List Char)
    (hp : pat = "@c.us".toList ∨ pat = "@g.us".toList)
    (hs : suffix = "@c.us".toList ∨ suffix = "@g.us".toList) (hne : pat ≠ suffix)
    (h : includesChars pat p = false) : includesChars pat (p ++ suffix) = false := by
  induction p with
  | nil =>
    rcases hp with hp | hp <;> subst hp <;> rcases hs with hs | hs <;> subst hs
    · exact absurd rfl hne
    · decide
    · decide
    · exact absurd rfl hne
  | cons c cs ih =>
    simp only [includesChars, Bool.or_eq_false_iff] at h
    simp only [List.cons_append, includesChars, Bool.or_eq_false_iff]
    exact ⟨marker_not_straddling pat suffix c cs hp hs h.1, ih h.2⟩

theorem removeFirst_append_marker (pat : List Char) (p : List Char)
    (hp : pat = "@c.us".toList ∨ pat = "@g.us".toList)
    (h : includesChars pat p = false) : removeFirst pat (p ++ pat) = p := by
  induction p with
  | nil => rcases hp with hp | hp <;> subst hp <;> decide
  | cons c cs ih =>
    simp only [includesChars, Bool.or_eq_false_iff] at h
    have hno := marker_not_straddling pat pat c cs hp hp h.1
    simp only [List.cons_append] at hno ⊢
    simp only [removeFirst, hno, Bool.false_eq_true, if_false, ih h.2]

theorem normalizePhone_strips_marker (p suffix : String)
    (hs : suffix = "@c.us" ∨ suffix = "@g.us")
    (hc : includes p "@c.us" = false) (hg : includes p "@g.us" = false) :
    normalizePhone (p ++ suffix) = p := by
  unfold includes at hc hg
  unfold normalizePhone replaceWithEmpty
  rcases hs with hs | hs <;> subst hs
  · have h1 : removeFirst "@c.us".toList (p ++ "@c.us").toList = p.toList := by
      exact removeFirst_append_marker "@c.us".toList p.toList (Or.inl rfl) hc
    rw [h1]
    have h2 : removeFirst "@g.us".toList (String.mk p.toList).toList = p.toList :=
      removeFirst_of_not_includes _ _ hg
    rw [h2]
    rfl
  · have h1 : removeFirst "@c.us".toList (p ++ "@g.us").toList = p.toList ++ "@g.us".toList := by
      exact removeFirst_of_not_includes "@c.us".toList (p.toList ++ "@g.us".toList)
        (includesChars_append_marker _ _ _ (Or.inl rfl) (Or.inr rfl) (by decide) hc)
    rw [h1]
    have h2 : removeFirst "@g.us".toList (String.mk (p.toList ++ "@g.us".toList)).toList =
        p.toList := removeFirst_append_marker _ _ (Or.inr rfl) hg
    rw [h2]
    rfl
/-- C11, counterexample: the recipient's phone is `1@g.us` followed by `@c.us`.  The phone of
the gateway request is `1`: the `@g.us` inside the phone is removed as well, so the request
does not carry `1@g.us`. -/
theorem marker_inside_phone_is_removed :
    markedCampaign.recipients.map (fun r => r.phone) = [some ("1@g.us" ++ "@c.us")] ∧
    (gatewayCalls (sendHandler acceptingEnv sampleUser 7 [markedCampaign]).trace).map
      (fun q => q.phone) = ["1"] ∧
    ("1" : String) ≠ "1@g.us" := by
  decide

/-- C11, amended: on a working store, for every valid campaign and every recipient of it
whose phone is `p` followed by `@c.us` or `@g.us`, where `p` itself contains neither `@c.us`
nor `@g.us`, the send operation makes a gateway request for that recipient, and the phone
of that request is exactly `p`. -/
theorem request_phone_strips_marker (env : Env) (user : User) (id : Nat) (store : Store)
    (c : Campaign) (j : Nat) (r : Recipient) (p suffix : String)
    (hs : StoreReliable env) (hf : findOne store id user.id = some c) (hv : validate c = none)
    (hj : c.recipients[j]? = some r) (hsuffix : suffix = "@c.us" ∨ suffix = "@g.us")
    (hphone : r.phone = some (p ++ suffix))
    (hc : includes p "@c.us" = false) (hg : includes p "@g.us" = false) :
    ∃ req, Event.attempt j (some req) ∈ (sendHandler env user id store).trace ∧
      req = mkRequest env user c r (p ++ suffix) ∧ req.phone = p := by
  refine ⟨mkRequest env user c r (p ++ suffix), ?_, rfl, ?_⟩
  · have hmem := attempt_mem_traceFrom env user (runningDoc c) 0 j c.recipients r hj
    rw [Nat.zero_add, tryDeliver_fst, hphone] at hmem
    rw [sendHandler_trace env user id store c hs hf hv]
    exact hmem
  · exact normalizePhone_strips_marker p suffix hsuffix hc hg

/-- Witness of C11 (amended): the group recipient `222@g.us` of the sample campaign. -/
theorem request_phone_strips_marker_witness :
    (StoreReliable acceptingEnv ∧
      findOne [sampleCampaign] 7 sampleUser.id = some sampleCampaign ∧
      validate sampleCampaign = none ∧
      sampleCampaign.recipients[1]? =
        some { phone := some "222@g.us", name := none, isGroup := some true } ∧
      (("@g.us" : String) = "@c.us" ∨ ("@g.us" : String) = "@g.us") ∧
      ({ phone := some "222@g.us", name := none, isGroup := some true } : Recipient).phone =
        some ("222" ++ "@g.us") ∧
      includes "222" "@c.us" = false ∧ includes "222" "@g.us" = false) ∧
    ∃ req, Event.attempt 1 (some req) ∈
        (sendHandler acceptingEnv sampleUser 7 [sampleCampaign]).trace ∧
      req = mkRequest acceptingEnv sampleUser sampleCampaign
        { phone := some "222@g.us", name := none, isGroup := some true } ("222" ++ "@g.us") ∧
      req.phone = "222" :=
  ⟨⟨⟨rfl, fun _ => rfl⟩, by decide, by decide, by decide, by decide, by decide, by decide,
      by decide⟩,
    request_phone_strips_marker acceptingEnv sampleUser 7 [sampleCampaign] sampleCampaign 1
      { phone := some "222@g.us", name := none, isGroup := some true } "222" "@g.us"
      ⟨rfl, fun _ => rfl⟩ (by decide) (by decide) (by decide) (by decide) (by decide)
      (by decide) (by decide)⟩

theorem requestsOf_map_isGroup (env : Env) (user : User) (c : Campaign)
    (rs : List Recipient) :
    (rs.filterMap (fun r => r.phone.map (mkRequest env user c r))).map (fun q => q.isGroup) =
      (rs.filter (fun r => r.phone.isSome)).map (fun r => r.isGroup.getD false) := by
  induction rs with
  | nil => rfl
  | cons r rs ih =>
    rw [List.filterMap_cons, List.filter_cons]
    cases hp : r.phone with
    | none => simpa using ih
    | some p => simpa [mkRequest] using ih

/-- C12: for every recipient the `try` block makes a gateway request for, the `isGroup` flag
of the request is the recipient's stored `isGroup` flag, `false` when it is absent; it does
not depend on the phone: two recipients with the same flag get the same `isGroup` value
whatever their phones are.  On a working store, for a valid campaign, the `isGroup` flags of
the gateway calls of the send operation are the flags of the recipients that have a phone,
in order. -/
theorem request_isGroup_from_flag (env : Env) (user : User) (id : Nat) (store : Store)
    (c : Campaign) (hs : StoreReliable env) (hf : findOne store id user.id = some c)
    (hv : validate c = none) :
    (∀ (i : Nat) (r : Recipient) (req : GatewayRequest),
      (tryDeliver env user c i r).1 = some req → req.isGroup = r.isGroup.getD false) ∧
    (∀ (r₁ r₂ : Recipient) (p₁ p₂ : String), r₁.isGroup = r₂.isGroup →
      (mkRequest env user c r₁ p₁).isGroup = (mkRequest env user c r₂ p₂).isGroup) ∧
    (gatewayCalls (sendHandler env user id store).trace).map (fun q => q.isGroup) =
      (c.recipients.filter (fun r => r.phone.isSome)).map (fun r => r.isGroup.getD false) := by
  refine ⟨?_, ?_, ?_⟩
  · intro i r req h
    rw [tryDeliver_fst] at h
    cases hp : r.phone with
    | none => rw [hp] at h; cases h
    | some p =>
      rw [hp] at h
      simp only [Option.map_some', Option.some.injEq] at h
      rw [← h]
      rfl
  · intro r₁ r₂ p₁ p₂ h
    unfold mkRequest
    simp only [h]
  · rw [sendHandler_trace env user id store c hs hf hv, gatewayCalls_traceFrom]
    exact requestsOf_map_isGroup env user (runningDoc c) c.recipients

/-- Witness of C12: the sample campaign, a chat without flag and a group with the flag. -/
theorem request_isGroup_from_flag_witness :
    (StoreReliable acceptingEnv ∧
      findOne [sampleCampaign] 7 sampleUser.id = some sampleCampaign ∧
      validate sampleCampaign = none) ∧
    (∀ (i : Nat) (r : Recipient) (req : GatewayRequest),
      (tryDeliver acceptingEnv sampleUser sampleCampaign i r).1 = some req →
        req.isGroup = r.isGroup.getD false) ∧
    (∀ (r₁ r₂ : Recipient) (p₁ p₂ : String), r₁.isGroup = r₂.isGroup →
      (mkRequest acceptingEnv sampleUser sampleCampaign r₁ p₁).isGroup =
        (mkRequest acceptingEnv sampleUser sampleCampaign r₂ p₂).isGroup) ∧
    (gatewayCalls (sendHandler acceptingEnv sampleUser 7 [sampleCampaign]).trace).map
        (fun q => q.isGroup) =
      (sampleCampaign.recipients.filter (fun r => r.phone.isSome)).map
        (fun r => r.isGroup.getD false) :=
  ⟨⟨⟨rfl, fun _ => rfl⟩, by decide, by decide⟩,
    request_isGroup_from_flag acceptingEnv sampleUser 7 [sampleCampaign] sampleCampaign
      ⟨rfl, fun _ => rfl⟩ (by decide) (by decide)⟩

theorem ledgerEntry_error_iff (env : Env) (user : User) (c : Campaign) (i : Nat)
    (r : Recipient) :
    ((ledgerEntry env user c i r).error.isSome ↔ (ledgerEntry env user c i r).status = "failed") ∧
    ((ledgerEntry env user c i r).status = "success" → (ledgerEntry env user c i r).error = none) := by
  unfold ledgerEntry
  split <;> simp

theorem ledgerFrom_forall (env : Env) (user : User) (c : Campaign) (P : ResultEntry → Prop)
    (hP : ∀ i r, P (ledgerEntry env user c i r)) (i : Nat) (rs : List Recipient) :
    ∀ e ∈ ledgerFrom env user c i rs, P e := by
  induction rs generalizing i with
  | nil =>
    intro e he
    cases he
  | cons r rs ih =>
    intro e he
    rw [ledgerFrom] at he
    rcases List.mem_cons.mp he with h | h
    · rw [h]
      exact hP i r
    · exact ih (i + 1) e h

/-- C13: on a working store, for every valid campaign and every gateway behaviour, the send
operation answers with the campaign and its ledger of one entry per recipient, and every
entry of that ledger carries an error detail if and only if its status is `failed`: an
entry with status `success` has no `error`, an entry with status `failed` has one, and
there is no other status. -/
theorem ledger_error_iff_failed (env : Env) (user : User) (id : Nat) (store : Store)
    (c : Campaign) (hs : StoreReliable env) (hf : findOne store id user.id = some c)
    (hv : validate c = none) :
    ∃ final : Campaign,
      (sendHandler env user id store).response = .json 200 final ∧
      final.results.length = c.recipients.length ∧
      ∀ e ∈ final.results,
        (e.error.isSome ↔ e.status = "failed") ∧ (e.status = "success" → e.error = none) ∧
        (e.status = "success" ∨ e.status = "failed") := by
  refine ⟨finalDoc env user c, ?_, ?_, ?_⟩
  · rw [sendHandler_ok env user id store c hs hf hv]
  · rw [finalDoc_results, ledgerFrom_length]
  · rw [finalDoc_results]
    exact ledgerFrom_forall env user (runningDoc c) _
      (fun i r => ⟨(ledgerEntry_error_iff env user _ i r).1,
        (ledgerEntry_error_iff env user _ i r).2, ledgerEntry_status env user _ i r⟩)
      0 c.recipients

/-- Witness of C13: the sample campaign when the second call fails. -/
theorem ledger_error_iff_failed_witness :
    (StoreReliable secondFailsEnv ∧
      findOne [sampleCampaign] 7 sampleUser.id = some sampleCampaign ∧
      validate sampleCampaign = none) ∧
    ∃ final : Campaign,
      (sendHandler secondFailsEnv sampleUser 7 [sampleCampaign]).response = .json 200 final ∧
      final.results.length = sampleCampaign.recipients.length ∧
      ∀ e ∈ final.results,
        (e.error.isSome ↔ e.status = "failed") ∧ (e.status = "success" → e.error = none) ∧
        (e.status = "success" ∨ e.status = "failed") :=
  ⟨⟨⟨rfl, fun _ => rfl⟩, by decide, by decide⟩,
    ledger_error_iff_failed secondFailsEnv sampleUser 7 [sampleCampaign] sampleCampaign
      ⟨rfl, fun _ => rfl⟩ (by decide) (by decide)⟩

/-- C14, counterexample: the store refuses the `save()` after the loop.  Both recipients have
been attempted, and the response is the 500 error with no campaign and no ledger in it. -/
theorem final_save_failure_loses_ledger :
    (sendHandler finalSaveFailsEnv sampleUser 7 [sampleCampaign]).response =
      .failure 500 "Failed to send campaign" (some "store unavailable") ∧
    (gatewayCalls (sendHandler finalSaveFailsEnv sampleUser 7 [sampleCampaign]).trace).length = 2 ∧
    (findOne (sendHandler finalSaveFailsEnv sampleUser 7 [sampleCampaign]).store 7 1).map
      (fun d => (d.status, d.results)) = some (.running, []) := by
  decide

/-- C14, amended: for every store and gateway behaviour, the send operation ends in one of
three ways: an error response (404 or 500) issued before any delivery attempt, with the
store as it was; the 500 error response issued because the `save()` after the loop failed,
in which case the loop has run and the response carries no ledger; or the campaign with
its ledger of one entry per recipient. -/
theorem send_response_cases (env : Env) (user : User) (id : Nat) (store : Store) :
    (∃ code message error,
      (sendHandler env user id store).response = .failure code message error ∧
      (sendHandler env user id store).trace = [] ∧
      (sendHandler env user id store).store = store) ∨
    (∃ c e, findOne store id user.id = some c ∧
      save env 1 (finalDoc env user c) (replaceDoc (runningDoc c) store) = .error e ∧
      (sendHandler env user id store).response =
        .failure 500 "Failed to send campaign" (some e) ∧
      (sendHandler env user id store).trace =
        traceFrom env user (runningDoc c) 0 c.recipients) ∨
    (∃ c, findOne store id user.id = some c ∧
      (sendHandler env user id store).response = .json 200 (finalDoc env user c) ∧
      (finalDoc env user c).results.length = c.recipients.length ∧
      (sendHandler env user id store).trace =
        traceFrom env user (runningDoc c) 0 c.recipients) := by
  cases hff : env.findFault with
  | some e =>
    refine Or.inl ⟨500, "Failed to send campaign", some e, ?_, ?_, ?_⟩ <;>
    · unfold sendHandler
      rw [hff]
  | none =>
    cases hf : findOne store id user.id with
    | none =>
      refine Or.inl ⟨404, "Campaign not found", none, ?_, ?_, ?_⟩ <;>
      · unfold sendHandler
        rw [hff, hf]
    | some c =>
      have htr : (sendLoop env user (runningDoc c) c.recipients.length).trace =
          traceFrom env user (runningDoc c) 0 c.recipients := by
        have h := sendLoop_trace env user (runningDoc c) c.recipients.length (Nat.le_refl _)
        have hr : (runningDoc c).recipients = c.recipients := rfl
        rw [hr, List.take_length] at h
        exact h
      rw [sendHandler_found env user id store c hff hf]
      rcases save_cases env 0 (runningDoc c) with ⟨e, he⟩ | hok
      · rw [he]
        exact Or.inl ⟨500, "Failed to send campaign", some e, rfl, rfl, rfl⟩
      · rw [hok]
        dsimp only
        rcases save_cases env 1 (finalDoc env user c) with ⟨e, he⟩ | hok1
        · rw [he]
          exact Or.inr (Or.inl ⟨c, e, rfl, he _, rfl, htr⟩)
        · rw [hok1]
          refine Or.inr (Or.inr ⟨c, rfl, rfl, ?_, htr⟩)
          rw [finalDoc_results, ledgerFrom_length]

/-- C15, counterexample: the store fails while the draft sample campaign is loaded, or while
its status `running` is saved.  The request is answered with the 500 error and the stored
campaign is unchanged: its status is `draft`, not `failed`. -/
theorem run_fault_leaves_draft :
    sampleCampaign.status = .draft ∧
    (sendHandler loadFailsEnv sampleUser 7 [sampleCampaign]).response =
      .failure 500 "Failed to send campaign" (some "store unavailable") ∧
    (sendHandler loadFailsEnv sampleUser 7 [sampleCampaign]).store = [sampleCampaign] ∧
    (sendHandler firstSaveFailsEnv sampleUser 7 [sampleCampaign]).response =
      .failure 500 "Failed to send campaign" (some "store unavailable") ∧
    (sendHandler firstSaveFailsEnv sampleUser 7 [sampleCampaign]).store = [sampleCampaign] := by
  decide

/-- C15, amended: when the store fails while the campaign is loaded, or while the status
`running` of a valid campaign is saved, the send operation makes no delivery attempt and no
pause, saves nothing, answers with the 500 error that carries the message of the fault, and
leaves the store, hence the campaign and its status, exactly as it was. -/
theorem run_fault_changes_nothing (env : Env) (user : User) (id : Nat) (store : Store)
    (e : String)
    (hfault : env.findFault = some e ∨
      (env.findFault = none ∧ env.saveFault 0 = some e ∧
        ∃ c, findOne store id user.id = some c ∧ validate c = none)) :
    (sendHandler env user id store).response =
      .failure 500 "Failed to send campaign" (some e) ∧
    (sendHandler env user id store).trace = [] ∧
    (sendHandler env user id store).saved = [] ∧
    (sendHandler env user id store).store = store := by
  rcases hfault with hff | ⟨hff, hsave, c, hf, hv⟩
  · unfold sendHandler
    rw [hff]
    exact ⟨rfl, rfl, rfl, rfl⟩
  · have hrun : save env 0 (runningDoc c) store = .error e := by
      unfold save
      rw [validate_runningDoc, hv]
      dsimp only
      rw [hsave]
    rw [sendHandler_found env user id store c hff hf, hrun]
    exact ⟨rfl, rfl, rfl, rfl⟩

/-- Witness of C15 (amended): the store refuses to save the status `running`. -/
theorem run_fault_changes_nothing_witness :
    (firstSaveFailsEnv.findFault = some "store unavailable" ∨
      (firstSaveFailsEnv.findFault = none ∧
        firstSaveFailsEnv.saveFault 0 = some "store unavailable" ∧
        ∃ c, findOne [sampleCampaign] 7 sampleUser.id = some c ∧ validate c = none)) ∧
    (sendHandler firstSaveFailsEnv sampleUser 7 [sampleCampaign]).response =
      .failure 500 "Failed to send campaign" (some "store unavailable") ∧
    (sendHandler firstSaveFailsEnv sampleUser 7 [sampleCampaign]).trace = [] ∧
    (sendHandler firstSaveFailsEnv sampleUser 7 [sampleCampaign]).saved = [] ∧
    (sendHandler firstSaveFailsEnv sampleUser 7 [sampleCampaign]).store = [sampleCampaign] :=
  ⟨Or.inr ⟨rfl, rfl, sampleCampaign, by decide, by decide⟩,
    run_fault_changes_nothing firstSaveFailsEnv sampleUser 7 [sampleCampaign]
      "store unavailable" (Or.inr ⟨rfl, rfl, sampleCampaign, by decide, by decide⟩)⟩

/-- C16, at the failing input: two stored copies of the sample campaign, one sent before on
the accepting gateway and one on the rejecting gateway, differ in `results`, `successCount`
and `failureCount` only.  Both are sent on the accepting gateway: the results written are
the same, the counters written are `(4, 0)` for the one and `(2, 2)` for the other. -/
theorem resend_counters_depend_on_history :
    DefinitionKept sentCampaign rejectedCampaign ∧
    sentCampaign.status = rejectedCampaign.status ∧
    (findOne (sendHandler acceptingEnv sampleUser 7 [sentCampaign]).store 7 1).map
        (fun d => d.results) =
      (findOne (sendHandler acceptingEnv sampleUser 7 [rejectedCampaign]).store 7 1).map
        (fun d => d.results) ∧
    (findOne (sendHandler acceptingEnv sampleUser 7 [sentCampaign]).store 7 1).map
      (fun d => (d.status, d.successCount, d.failureCount)) = some (.completed, 4, 0) ∧
    (findOne (sendHandler acceptingEnv sampleUser 7 [rejectedCampaign]).store 7 1).map
      (fun d => (d.status, d.successCount, d.failureCount)) = some (.completed, 2, 2) := by
  unfold DefinitionKept
  decide

theorem sendLoop_results_length (env : Env) (user : User) (c : Campaign) (k : Nat)
    (hk : k ≤ c.recipients.length) : (sendLoop env user c k).results.length = k := by
  rw [sendLoop_results env user c k hk, ledgerFrom_length, List.length_take,
    Nat.min_eq_left hk]

/-- C17: for every valid campaign on a working store and every iteration index `k` of the
send loop, the ledger after `k + 1` recipients is the ledger after `k` recipients with one
entry, carrying the phone of recipient `k`, added at the end; the ledger after `k`
recipients has length `k`, the one after `k + 1` has length `k + 1`, and its first `k`
entries are the earlier ledger.  The ledger of the campaign returned is the ledger after
the last iteration. -/
theorem loop_appends_one_entry (env : Env) (user : User) (id : Nat) (store : Store)
    (c : Campaign) (k : Nat) (hs : StoreReliable env)
    (hf : findOne store id user.id = some c) (hv : validate c = none)
    (hk : k < c.recipients.length) :
    (∃ entry : ResultEntry,
      (c.recipients[k]?).map (fun r => r.phone) = some entry.recipient ∧
      (sendLoop env user (runningDoc c) (k + 1)).results =
        (sendLoop env user (runningDoc c) k).results ++ [entry]) ∧
    (sendLoop env user (runningDoc c) k).results.length = k ∧
    (sendLoop env user (runningDoc c) (k + 1)).results.length = k + 1 ∧
    (sendLoop env user (runningDoc c) (k + 1)).results.take k =
      (sendLoop env user (runningDoc c) k).results ∧
    ∃ final : Campaign,
      (sendHandler env user id store).response = .json 200 final ∧
      final.results = (sendLoop env user (runningDoc c) c.recipients.length).results := by
  have hk1 : k < (runningDoc c).recipients.length := hk
  have hstep : (sendLoop env user (runningDoc c) (k + 1)).results =
      (sendLoop env user (runningDoc c) k).results ++
        [ledgerEntry env user (sendLoop env user (runningDoc c) k).campaign k
          (c.recipients.get ⟨k, hk⟩)] := by
    rw [sendLoop_succ env user (runningDoc c) k hk1, sendStep_results]
    rfl
  have hlen := sendLoop_results_length env user (runningDoc c) k (Nat.le_of_lt hk1)
  refine ⟨⟨_, ?_, hstep⟩, hlen, ?_, ?_, finalDoc env user c, ?_, rfl⟩
  · rw [ledgerEntry_recipient, List.getElem?_eq_getElem hk]
    rfl
  · exact sendLoop_results_length env user (runningDoc c) (k + 1) hk1
  · rw [hstep, List.take_left' hlen]
  · rw [sendHandler_ok env user id store c hs hf hv]

/-- Witness of C17: the second iteration on the sample campaign. -/
theorem loop_appends_one_entry_witness :
    (StoreReliable secondFailsEnv ∧
      findOne [sampleCampaign] 7 sampleUser.id = some sampleCampaign ∧
      validate sampleCampaign = none ∧ 1 < sampleCampaign.recipients.length) ∧
    (∃ entry : ResultEntry,
      (sampleCampaign.recipients[1]?).map (fun r => r.phone) = some entry.recipient ∧
      (sendLoop secondFailsEnv sampleUser (runningDoc sampleCampaign) (1 + 1)).results =
        (sendLoop secondFailsEnv sampleUser (runningDoc sampleCampaign) 1).results ++ [entry]) ∧
    (sendLoop secondFailsEnv sampleUser (runningDoc sampleCampaign) 1).results.length = 1 ∧
    (sendLoop secondFailsEnv sampleUser (runningDoc sampleCampaign) (1 + 1)).results.length =
      1 + 1 ∧
    (sendLoop secondFailsEnv sampleUser (runningDoc sampleCampaign) (1 + 1)).results.take 1 =
      (sendLoop secondFailsEnv sampleUser (runningDoc sampleCampaign) 1).results ∧
    ∃ final : Campaign,
      (sendHandler secondFailsEnv sampleUser 7 [sampleCampaign]).response = .json 200 final ∧
      final.results =
        (sendLoop secondFailsEnv sampleUser (runningDoc sampleCampaign)
          sampleCampaign.recipients.length).results :=
  ⟨⟨⟨rfl, fun _ => rfl⟩, by decide, by decide, by decide⟩,
    loop_appends_one_entry secondFailsEnv sampleUser 7 [sampleCampaign] sampleCampaign 1
      ⟨rfl, fun _ => rfl⟩ (by decide) (by decide) (by decide)⟩

theorem DefinitionKept.of_sameDefinition {a b : Campaign} (h : SameDefinition a b) :
    DefinitionKept a b :=
  ⟨h.1, h.2.1, h.2.2.1, h.2.2.2.1, h.2.2.2.2.1, h.2.2.2.2.2.2.1, h.2.2.2.2.2.1⟩

theorem definitionKept_runningDoc (c : Campaign) : DefinitionKept (runningDoc c) c :=
  ⟨rfl, rfl, rfl, rfl, rfl, rfl, rfl⟩

theorem definitionKept_finalDoc (env : Env) (user : User) (c : Campaign) :
    DefinitionKept (finalDoc env user c) c := by
  obtain ⟨h1, h2, h3, h4, h5, h6, h7⟩ := finalDoc_sameDefinition env user c
  exact ⟨h1, h2, h3, h4, h5, h7, h6⟩

theorem sendHandler_found_cases (env : Env) (user : User) (id : Nat) (store : Store)
    (c : Campaign) (hf : findOne store id user.id = some c) :
    ((∃ e, (sendHandler env user id store).response =
        .failure 500 "Failed to send campaign" (some e)) ∧
      (sendHandler env user id store).saved = [] ∧
      (sendHandler env user id store).trace = [] ∧
      (sendHandler env user id store).store = store) ∨
    ((∃ e, (sendHandler env user id store).response =
        .failure 500 "Failed to send campaign" (some e)) ∧
      (sendHandler env user id store).saved = [runningDoc c] ∧
      (sendHandler env user id store).trace =
        (sendLoop env user (runningDoc c) c.recipients.length).trace ∧
      (sendHandler env user id store).store = replaceDoc (runningDoc c) store) ∨
    ((sendHandler env user id store).response = .json 200 (finalDoc env user c) ∧
      (sendHandler env user id store).saved = [runningDoc c, finalDoc env user c] ∧
      (sendHandler env user id store).trace =
        (sendLoop env user (runningDoc c) c.recipients.length).trace ∧
      (sendHandler env user id store).store =
        replaceDoc (finalDoc env user c) (replaceDoc (runningDoc c) store)) := by
  cases hfault : env.findFault with
  | some e =>
    unfold sendHandler
    rw [hfault]
    exact Or.inl ⟨⟨e, rfl⟩, rfl, rfl, rfl⟩
  | none =>
    rw [sendHandler_found env user id store c hfault hf]
    rcases save_cases env 0 (runningDoc c) with ⟨e, he⟩ | hok
    · rw [he]
      exact Or.inl ⟨⟨e, rfl⟩, rfl, rfl, rfl⟩
    · rw [hok]
      dsimp only
      rcases save_cases env 1 (finalDoc env user c) with ⟨e, he⟩ | hok1
      · rw [he]
        exact Or.inr (Or.inl ⟨⟨e, rfl⟩, rfl, rfl, rfl⟩)
      · rw [hok1]
        exact Or.inr (Or.inr ⟨rfl, rfl, rfl, rfl⟩)

/-- C18: for every stored campaign, every gateway behaviour and every behaviour of the
store, the send operation leaves the definition of the campaign as it was: every document
it saves, the campaign it returns and the campaign stored afterwards have the `recipients`
(contents and order), `name`, `message`, `delay`, `totalRecipients`, `userId` and `_id` of
the campaign stored before.  On a working store a valid campaign is returned. -/
theorem send_keeps_definition (env : Env) (user : User) (id : Nat) (store : Store)
    (c : Campaign) (hf : findOne store id user.id = some c) :
    (∀ d ∈ (sendHandler env user id store).saved, DefinitionKept d c) ∧
    (∀ code final, (sendHandler env user id store).response = .json code final →
      DefinitionKept final c) ∧
    (∃ d, findOne (sendHandler env user id store).store id user.id = some d ∧
      DefinitionKept d c) ∧
    (StoreReliable env → validate c = none →
      ∃ final, (sendHandler env user id store).response = .json 200 final ∧
        DefinitionKept final c) := by
  obtain ⟨hid, hu⟩ := findOne_some hf
  have hkc : DefinitionKept c c := ⟨rfl, rfl, rfl, rfl, rfl, rfl, rfl⟩
  have hkr := definitionKept_runningDoc c
  have hkf := definitionKept_finalDoc env user c
  have hfr : findOne (replaceDoc (runningDoc c) store) id user.id = some (runningDoc c) :=
    findOne_replaceDoc store id user.id c _ hf hid hu
  have hff2 : findOne (replaceDoc (finalDoc env user c) (replaceDoc (runningDoc c) store))
      id user.id = some (finalDoc env user c) :=
    findOne_replaceDoc _ id user.id (runningDoc c) _ hfr (hkf.1.trans hid) (hkf.2.1.trans hu)
  have hlast : StoreReliable env → validate c = none →
      ∃ final, (sendHandler env user id store).response = .json 200 final ∧
        DefinitionKept final c := by
    intro hs hv
    refine ⟨finalDoc env user c, ?_, hkf⟩
    rw [sendHandler_ok env user id store c hs hf hv]
  rcases sendHandler_found_cases env user id store c hf with
    ⟨⟨e, hr⟩, hsv, -, hst⟩ | ⟨⟨e, hr⟩, hsv, -, hst⟩ | ⟨hr, hsv, -, hst⟩
  · refine ⟨?_, ?_, ⟨c, ?_, hkc⟩, hlast⟩
    · intro d hd
      rw [hsv] at hd
      cases hd
    · intro code final h
      rw [hr] at h
      cases h
    · rw [hst]
      exact hf
  · refine ⟨?_, ?_, ⟨runningDoc c, ?_, hkr⟩, hlast⟩
    · intro d hd
      rw [hsv, List.mem_singleton] at hd
      rw [hd]
      exact hkr
    · intro code final h
      rw [hr] at h
      cases h
    · rw [hst]
      exact hfr
  · refine ⟨?_, ?_, ⟨finalDoc env user c, ?_, hkf⟩, hlast⟩
    · intro d hd
      rw [hsv] at hd
      simp only [List.mem_cons, List.mem_singleton, List.not_mem_nil, or_false] at hd
      rcases hd with hd | hd
      · rw [hd]
        exact hkr
      · rw [hd]
        exact hkf
    · intro code final h
      rw [hr] at h
      simp only [Response.json.injEq] at h
      rw [← h.2]
      exact hkf
    · rw [hst]
      exact hff2

/-- Witness of C18: the sample campaign on the accepting gateway. -/
theorem send_keeps_definition_witness :
    findOne [sampleCampaign] 7 sampleUser.id = some sampleCampaign ∧
    (∀ d ∈ (sendHandler acceptingEnv sampleUser 7 [sampleCampaign]).saved,
      DefinitionKept d sampleCampaign) ∧
    (∀ code final,
      (sendHandler acceptingEnv sampleUser 7 [sampleCampaign]).response = .json code final →
        DefinitionKept final sampleCampaign) ∧
    (∃ d, findOne (sendHandler acceptingEnv sampleUser 7 [sampleCampaign]).store 7
        sampleUser.id = some d ∧ DefinitionKept d sampleCampaign) ∧
    (StoreReliable acceptingEnv → validate sampleCampaign = none →
      ∃ final,
        (sendHandler acceptingEnv sampleUser 7 [sampleCampaign]).response = .json 200 final ∧
        DefinitionKept final sampleCampaign) :=
  ⟨by decide,
    send_keeps_definition acceptingEnv sampleUser 7 [sampleCampaign] sampleCampaign
      (by decide)⟩
theorem ledgerFrom_getElem (env : Env) (user : User) (c : Campaign) (i j : Nat)
    (rs : List Recipient) (r : Recipient) (hj : rs[j]? = some r) :
    (ledgerFrom env user c i rs)[j]? = some (ledgerEntry env user c (i + j) r) := by
  induction rs generalizing i j with
  | nil => simp at hj
  | cons a rs ih =>
    cases j with
    | zero =>
      simp only [List.getElem?_cons_zero, Option.some.injEq] at hj
      subst hj
      simp [ledgerFrom]
    | succ j =>
      simp only [List.getElem?_cons_succ] at hj
      have := ih (i + 1) j hj
      rw [show i + 1 + j = i + (j + 1) by omega] at this
      simpa [ledgerFrom] using this

/-- C19: on a working store, for every valid campaign with two or more recipients and every
gateway behaviour, the send operation answers with the campaign, status `completed`, in
which the ledger entry of a recipient whose gateway call throws an error with message `m`
has status `failed` and error detail exactly `m`, and the ledger entry of a recipient whose
gateway call succeeds has status `success` and no error detail. -/
theorem failed_entry_carries_message (env : Env) (user : User) (id : Nat) (store : Store)
    (c : Campaign) (hs : StoreReliable env) (hf : findOne store id user.id = some c)
    (hv : validate c = none) (_h2 : 2 ≤ c.recipients.length) :
    ∃ final : Campaign,
      (sendHandler env user id store).response = .json 200 final ∧
      final.status = .completed ∧
      ∀ (j : Nat) (r : Recipient) (p : String), c.recipients[j]? = some r → r.phone = some p →
        (∀ m, env.gateway j (mkRequest env user c r p) = some m →
          final.results[j]? =
            some { recipient := some p, status := "failed", sentAt := env.now j,
                   error := some m }) ∧
        (env.gateway j (mkRequest env user c r p) = none →
          final.results[j]? =
            some { recipient := some p, status := "success", sentAt := env.now j,
                   error := none }) := by
  refine ⟨finalDoc env user c, ?_, finalDoc_status env user c, ?_⟩
  · rw [sendHandler_ok env user id store c hs hf hv]
  · intro j r p hj hp
    have hget := ledgerFrom_getElem env user (runningDoc c) 0 j c.recipients r hj
    rw [Nat.zero_add] at hget
    have hreq : mkRequest env user (runningDoc c) r p = mkRequest env user c r p := rfl
    constructor
    · intro m hm
      rw [finalDoc_results, hget]
      unfold ledgerEntry tryDeliver
      rw [hp]
      dsimp only
      rw [hreq, hm]
    · intro hm
      rw [finalDoc_results, hget]
      unfold ledgerEntry tryDeliver
      rw [hp]
      dsimp only
      rw [hreq, hm]

/-- Witness of C19: recipients `111@c.us` and `222@g.us`, the second call fails with
`timeout`; the campaign returned is `completed` with `successCount` 1, `failureCount` 1 and
the ledger `[(111@c.us, success), (222@g.us, failed, timeout)]`. -/
theorem failed_entry_carries_message_witness :
    (StoreReliable secondFailsEnv ∧
      findOne [sampleCampaign] 7 sampleUser.id = some sampleCampaign ∧
      validate sampleCampaign = none ∧ 2 ≤ sampleCampaign.recipients.length) ∧
    (∃ final : Campaign,
      (sendHandler secondFailsEnv sampleUser 7 [sampleCampaign]).response = .json 200 final ∧
      final.status = .completed ∧
      ∀ (j : Nat) (r : Recipient) (p : String),
        sampleCampaign.recipients[j]? = some r → r.phone = some p →
        (∀ m, secondFailsEnv.gateway j (mkRequest secondFailsEnv sampleUser sampleCampaign r p) =
            some m →
          final.results[j]? =
            some { recipient := some p, status := "failed", sentAt := secondFailsEnv.now j,
                   error := some m }) ∧
        (secondFailsEnv.gateway j (mkRequest secondFailsEnv sampleUser sampleCampaign r p) = none →
          final.results[j]? =
            some { recipient := some p, status := "success", sentAt := secondFailsEnv.now j,
                   error := none })) ∧
    (sendHandler secondFailsEnv sampleUser 7 [sampleCampaign]).response =
      .json 200
        { id := 7, userId := 1, name := some "spring", message := some "hello",
          recipients := [{ phone := some "111@c.us", name := none, isGroup := none },
                         { phone := some "222@g.us", name := none, isGroup := some true }],
          status := .completed,
          results :=
            [{ recipient := some "111@c.us", status := "success", sentAt := 1000, error := none },
             { recipient := some "222@g.us", status := "failed", sentAt := 1001,
               error := some "timeout" }],
          totalRecipients := 2, successCount := 1, failureCount := 1, delay := 0 } :=
  ⟨⟨⟨rfl, fun _ => rfl⟩, by decide, by decide, by decide⟩,
    failed_entry_carries_message secondFailsEnv sampleUser 7 [sampleCampaign] sampleCampaign
      ⟨rfl, fun _ => rfl⟩ (by decide) (by decide) (by decide),
    by decide⟩

/-- C20: for every stored campaign in status `draft` whose message is missing or empty,
whatever the gateway and the store do, the send operation is rejected: the response is the
500 error (the `save()` that would write the status `running` fails validation of the
required `message`, unless the store already failed on the query), no attempt and no gateway
call is made, nothing is saved, and the store is as it was, so the stored campaign is still
`draft`. -/
theorem send_without_message_is_rejected (env : Env) (user : User) (id : Nat) (store : Store)
    (c : Campaign) (hf : findOne store id user.id = some c) (hd : c.status = .draft)
    (hm : requiredString c.message = false) :
    (∃ e, (sendHandler env user id store).response =
      .failure 500 "Failed to send campaign" (some e)) ∧
    (sendHandler env user id store).trace = [] ∧
    gatewayCalls (sendHandler env user id store).trace = [] ∧
    (sendHandler env user id store).saved = [] ∧
    (sendHandler env user id store).store = store ∧
    (findOne (sendHandler env user id store).store id user.id).map (fun d => d.status) =
      some .draft := by
  have hinvalid : ∃ e, validate (runningDoc c) = some e := by
    rw [validate_runningDoc]
    unfold validate
    rw [hm]
    by_cases hn : requiredString c.name = true
    · exact ⟨"Campaign validation failed: message is required", by simp [hn]⟩
    · exact ⟨"Campaign validation failed: name is required", by simp [hn]⟩
  obtain ⟨e, he⟩ := hinvalid
  have hsave : save env 0 (runningDoc c) store = .error e := by
    unfold save
    rw [he]
  have hresult : (∃ e, (sendHandler env user id store).response =
        .failure 500 "Failed to send campaign" (some e)) ∧
      (sendHandler env user id store).trace = [] ∧
      (sendHandler env user id store).saved = [] ∧
      (sendHandler env user id store).store = store := by
    cases hfault : env.findFault with
    | some e₀ =>
      unfold sendHandler
      rw [hfault]
      exact ⟨⟨e₀, rfl⟩, rfl, rfl, rfl⟩
    | none =>
      rw [sendHandler_found env user id store c hfault hf, hsave]
      exact ⟨⟨e, rfl⟩, rfl, rfl, rfl⟩
  obtain ⟨hr, ht, hsv, hst⟩ := hresult
  refine ⟨hr, ht, ?_, hsv, hst, ?_⟩
  · rw [ht]
    rfl
  · rw [hst, hf]
    exact congrArg some hd

/-- Witness of C20: the sample campaign stored with an empty message, on a working store
and an accepting gateway. -/
theorem send_without_message_is_rejected_witness :
    (findOne [blankMessageCampaign] 7 sampleUser.id = some blankMessageCampaign ∧
      blankMessageCampaign.status = .draft ∧
      requiredString blankMessageCampaign.message = false) ∧
    (∃ e, (sendHandler acceptingEnv sampleUser 7 [blankMessageCampaign]).response =
      .failure 500 "Failed to send campaign" (some e)) ∧
    (sendHandler acceptingEnv sampleUser 7 [blankMessageCampaign]).trace = [] ∧
    gatewayCalls (sendHandler acceptingEnv sampleUser 7 [blankMessageCampaign]).trace = [] ∧
    (sendHandler acceptingEnv sampleUser 7 [blankMessageCampaign]).saved = [] ∧
    (sendHandler acceptingEnv sampleUser 7 [blankMessageCampaign]).store =
      [blankMessageCampaign] ∧
    (findOne (sendHandler acceptingEnv sampleUser 7 [blankMessageCampaign]).store 7
      sampleUser.id).map (fun d => d.status) = some .draft :=
  ⟨⟨by decide, by decide, by decide⟩,
    send_without_message_is_rejected acceptingEnv sampleUser 7 [blankMessageCampaign]
      blankMessageCampaign (by decide) (by decide) (by decide)⟩

/-! ## Further claims on the send and create handlers -/

/-- C21, counterexample: the two-recipient sample campaign is sent.  The handler has no
input through which a cancellation could reach it (no route cancels a run and the loop reads
no flag), so whatever is requested during the pause, the run goes on: after the first
attempt and the pause the second recipient is attempted, two gateway calls are made and the
ledger saved has two entries, not one. -/
theorem send_runs_past_the_pause :
    (sendHandler acceptingEnv sampleUser 7 [sampleCampaign]).trace =
      [.attempt 0 (some (mkRequest acceptingEnv sampleUser sampleCampaign
          { phone := some "111@c.us", name := none, isGroup := none } "111@c.us")),
       .pause 0,
       .attempt 1 (some (mkRequest acceptingEnv sampleUser sampleCampaign
          { phone := some "222@g.us", name := none, isGroup := some true } "222@g.us"))] ∧
    (gatewayCalls (sendHandler acceptingEnv sampleUser 7 [sampleCampaign]).trace).length = 2 ∧
    (sendHandler acceptingEnv sampleUser 7 [sampleCampaign]).saved.map
      (fun d => (d.status, d.results.length)) = [(.running, 0), (.completed, 2)] := by
  decide

/-- C21, amended: the send operation cannot be cancelled.  On a working store, for every
valid campaign with at least two recipients and every gateway behaviour, the run that has
made the first attempt and started the pause goes on to attempt the second recipient (the
trace starts with attempt `0`, the pause, attempt `1`), and it ends with a ledger of one
entry per recipient, saved with status `completed`. -/
theorem send_has_no_cancellation (env : Env) (user : User) (id : Nat) (store : Store)
    (c : Campaign) (hs : StoreReliable env) (hf : findOne store id user.id = some c)
    (hv : validate c = none) (h2 : 2 ≤ c.recipients.length) :
    (∃ x y rest, (sendHandler env user id store).trace =
      .attempt 0 x :: .pause c.delay :: .attempt 1 y :: rest) ∧
    ∃ final : Campaign,
      (sendHandler env user id store).response = .json 200 final ∧
      findOne (sendHandler env user id store).store id user.id = some final ∧
      final.status = .completed ∧ final.results.length = c.recipients.length := by
  constructor
  · rw [sendHandler_trace env user id store c hs hf hv]
    rcases hrec : c.recipients with _ | ⟨r₀, _ | ⟨r₁, rs⟩⟩
    · rw [hrec] at h2
      simp at h2
    · rw [hrec] at h2
      simp at h2
    · have hlen : (runningDoc c).recipients.length = rs.length + 2 := by
        change c.recipients.length = rs.length + 2
        rw [hrec]
        rfl
      have h0 : 0 < (runningDoc c).recipients.length - 1 := by omega
      refine ⟨(tryDeliver env user (runningDoc c) 0 r₀).1,
        (tryDeliver env user (runningDoc c) 1 r₁).1,
        (if 1 < (runningDoc c).recipients.length - 1 then [Event.pause (runningDoc c).delay]
          else []) ++ traceFrom env user (runningDoc c) 2 rs, ?_⟩
      rw [traceFrom_cons, if_pos h0, traceFrom_cons]
      rfl
  · refine ⟨finalDoc env user c, ?_, sendHandler_stored env user id store c hs hf hv,
      finalDoc_status env user c, ?_⟩
    · rw [sendHandler_ok env user id store c hs hf hv]
    · rw [finalDoc_results, ledgerFrom_length]

/-- Witness of C21 (amended): the sample campaign. -/
theorem send_has_no_cancellation_witness :
    (StoreReliable acceptingEnv ∧
      findOne [sampleCampaign] 7 sampleUser.id = some sampleCampaign ∧
      validate sampleCampaign = none ∧ 2 ≤ sampleCampaign.recipients.length) ∧
    (∃ x y rest, (sendHandler acceptingEnv sampleUser 7 [sampleCampaign]).trace =
      .attempt 0 x :: .pause sampleCampaign.delay :: .attempt 1 y :: rest) ∧
    ∃ final : Campaign,
      (sendHandler acceptingEnv sampleUser 7 [sampleCampaign]).response = .json 200 final ∧
      findOne (sendHandler acceptingEnv sampleUser 7 [sampleCampaign]).store 7 sampleUser.id =
        some final ∧
      final.status = .completed ∧
      final.results.length = sampleCampaign.recipients.length :=
  ⟨⟨⟨rfl, fun _ => rfl⟩, by decide, by decide, by decide⟩,
    send_has_no_cancellation acceptingEnv sampleUser 7 [sampleCampaign] sampleCampaign
      ⟨rfl, fun _ => rfl⟩ (by decide) (by decide) (by decide)⟩

/-- C22: on a working store, for every valid stored campaign with counters `s0` and `f0`
and every gateway behaviour, the campaign returned has
`successCount = s0 + (number of ledger entries with status success)` and
`failureCount = f0 + (number of ledger entries with status failed)`, and every ledger entry
has one of these two statuses. -/
theorem send_counters_add_tallies (env : Env) (user : User) (id : Nat) (store : Store)
    (c : Campaign) (hs : StoreReliable env) (hf : findOne store id user.id = some c)
    (hv : validate c = none) :
    ∃ final : Campaign,
      (sendHandler env user id store).response = .json 200 final ∧
      final.successCount =
        c.successCount + final.results.countP (fun e => e.status = "success") ∧
      final.failureCount =
        c.failureCount + final.results.countP (fun e => e.status = "failed") ∧
      ∀ e ∈ final.results, e.status = "success" ∨ e.status = "failed" := by
  refine ⟨finalDoc env user c, ?_, (finalDoc_counts env user c).1,
    (finalDoc_counts env user c).2, ?_⟩
  · rw [sendHandler_ok env user id store c hs hf hv]
  · rw [finalDoc_results]
    exact ledgerFrom_forall env user (runningDoc c) _
      (fun i r => ledgerEntry_status env user _ i r) 0 c.recipients

/-- Witness of C22: the campaign sent before, with counters 2 and 0, when the second call
fails. -/
theorem send_counters_add_tallies_witness :
    (StoreReliable secondFailsEnv ∧
      findOne [sentCampaign] 7 sampleUser.id = some sentCampaign ∧
      validate sentCampaign = none) ∧
    ∃ final : Campaign,
      (sendHandler secondFailsEnv sampleUser 7 [sentCampaign]).response = .json 200 final ∧
      final.successCount =
        sentCampaign.successCount + final.results.countP (fun e => e.status = "success") ∧
      final.failureCount =
        sentCampaign.failureCount + final.results.countP (fun e => e.status = "failed") ∧
      ∀ e ∈ final.results, e.status = "success" ∨ e.status = "failed" :=
  ⟨⟨⟨rfl, fun _ => rfl⟩, by decide, by decide⟩,
    send_counters_add_tallies secondFailsEnv sampleUser 7 [sentCampaign] sentCampaign
      ⟨rfl, fun _ => rfl⟩ (by decide) (by decide)⟩

theorem findOne_eq_none {store : Store} {id userId : Nat}
    (h : ∀ d ∈ store, ¬ (d.id = id ∧ d.userId = userId)) : findOne store id userId = none := by
  unfold findOne
  rw [List.find?_eq_none]
  intro d hd
  simpa using h d hd

/-- C23: for every user and campaign id such that the store, which answers the query, holds
no campaign with that id owned by that user (a campaign with that id owned by another user
does not count), the send operation answers 404 `Campaign not found`, makes no attempt and
no gateway call, saves nothing and leaves the store as it was. -/
theorem send_of_foreign_campaign_is_not_found (env : Env) (user : User) (id : Nat)
    (store : Store) (hff : env.findFault = none)
    (hnone : ∀ d ∈ store, ¬ (d.id = id ∧ d.userId = user.id)) :
    (sendHandler env user id store).response = .failure 404 "Campaign not found" none ∧
    (sendHandler env user id store).trace = [] ∧
    gatewayCalls (sendHandler env user id store).trace = [] ∧
    (sendHandler env user id store).saved = [] ∧
    (sendHandler env user id store).store = store := by
  have hf := findOne_eq_none hnone
  unfold sendHandler
  rw [hff, hf]
  exact ⟨rfl, rfl, rfl, rfl, rfl⟩

/-- Witness of C23: the second user asks to send the campaign of the first user. -/
theorem send_of_foreign_campaign_is_not_found_witness :
    (acceptingEnv.findFault = none ∧
      ∀ d ∈ [sampleCampaign], ¬ (d.id = 7 ∧ d.userId = otherUser.id)) ∧
    (sendHandler acceptingEnv otherUser 7 [sampleCampaign]).response =
      .failure 404 "Campaign not found" none ∧
    (sendHandler acceptingEnv otherUser 7 [sampleCampaign]).trace = [] ∧
    gatewayCalls (sendHandler acceptingEnv otherUser 7 [sampleCampaign]).trace = [] ∧
    (sendHandler acceptingEnv otherUser 7 [sampleCampaign]).saved = [] ∧
    (sendHandler acceptingEnv otherUser 7 [sampleCampaign]).store = [sampleCampaign] :=
  ⟨⟨rfl, by decide⟩,
    send_of_foreign_campaign_is_not_found acceptingEnv otherUser 7 [sampleCampaign] rfl
      (by decide)⟩

theorem gatewayCalls_traceFrom_forall (env : Env) (user : User) (c : Campaign)
    (P : GatewayRequest → Prop) (hP : ∀ r p, P (mkRequest env user c r p)) (i : Nat)
    (rs : List Recipient) : ∀ req ∈ gatewayCalls (traceFrom env user c i rs), P req := by
  intro req hreq
  rw [gatewayCalls_traceFrom, List.mem_filterMap] at hreq
  obtain ⟨r, -, hr⟩ := hreq
  cases hp : r.phone with
  | none => rw [hp] at hr; cases hr
  | some p =>
    rw [hp] at hr
    simp only [Option.map_some', Option.some.injEq] at hr
    rw [← hr]
    exact hP r p

/-- C24: for every stored campaign, every gateway behaviour and every behaviour of the
store, every gateway request of one send operation carries the message of the campaign
unchanged (so the same for all recipients), `isNewsletter = false` and `isLid = false`, is
posted to the `send-message` URL of the session of the requesting user and is authorised
with the token of that user.  On a working store, for a valid campaign, the requests are
those of the recipients that have a phone. -/
theorem request_carries_message_and_session (env : Env) (user : User) (id : Nat)
    (store : Store) (c : Campaign) (hf : findOne store id user.id = some c) :
    (∀ req ∈ gatewayCalls (sendHandler env user id store).trace,
      req.message = c.message ∧ req.isNewsletter = false ∧ req.isLid = false ∧
      req.url = env.apiUrl ++ "/api/" ++ templateString user.sessionName ++ "/send-message" ∧
      req.authorization = "Bearer " ++ templateString user.whatsappToken) ∧
    (StoreReliable env → validate c = none →
      gatewayCalls (sendHandler env user id store).trace = requestsOf env user c) := by
  have hloop : ∀ req ∈ gatewayCalls (sendLoop env user (runningDoc c) c.recipients.length).trace,
      req.message = c.message ∧ req.isNewsletter = false ∧ req.isLid = false ∧
      req.url = env.apiUrl ++ "/api/" ++ templateString user.sessionName ++ "/send-message" ∧
      req.authorization = "Bearer " ++ templateString user.whatsappToken := by
    have h := sendLoop_trace env user (runningDoc c) c.recipients.length (Nat.le_refl _)
    have hr : (runningDoc c).recipients = c.recipients := rfl
    rw [hr, List.take_length] at h
    rw [h]
    exact gatewayCalls_traceFrom_forall env user (runningDoc c) _
      (fun r p => ⟨rfl, rfl, rfl, rfl, rfl⟩) 0 c.recipients
  constructor
  · rcases sendHandler_found_cases env user id store c hf with
      ⟨-, -, ht, -⟩ | ⟨-, -, ht, -⟩ | ⟨-, -, ht, -⟩
    · rw [ht]
      intro req hreq
      cases hreq
    · rw [ht]
      exact hloop
    · rw [ht]
      exact hloop
  · intro hs hv
    rw [sendHandler_trace env user id store c hs hf hv, gatewayCalls_traceFrom]
    rfl

/-- Witness of C24: the sample campaign on the accepting gateway. -/
theorem request_carries_message_and_session_witness :
    findOne [sampleCampaign] 7 sampleUser.id = some sampleCampaign ∧
    (∀ req ∈ gatewayCalls (sendHandler acceptingEnv sampleUser 7 [sampleCampaign]).trace,
      req.message = sampleCampaign.message ∧ req.isNewsletter = false ∧ req.isLid = false ∧
      req.url = acceptingEnv.apiUrl ++ "/api/" ++ templateString sampleUser.sessionName ++
        "/send-message" ∧
      req.authorization = "Bearer " ++ templateString sampleUser.whatsappToken) ∧
    (StoreReliable acceptingEnv → validate sampleCampaign = none →
      gatewayCalls (sendHandler acceptingEnv sampleUser 7 [sampleCampaign]).trace =
        requestsOf acceptingEnv sampleUser sampleCampaign) :=
  ⟨by decide,
    request_carries_message_and_session acceptingEnv sampleUser 7 [sampleCampaign]
      sampleCampaign (by decide)⟩

/-- C25: for every create request with a recipients list, a name and a message, on a store
that accepts the `save()`, the handler answers 201 with the created campaign, which is
added to the store; it has the recipients of the request, unchanged and in order,
`totalRecipients` equal to the length of that list, status `draft`, `successCount` 0,
`failureCount` 0, an empty results ledger, the name and message of the request and the
requesting user as owner, and it has delay `3000` when the request gives no delay. -/
theorem create_stores_request (env : Env) (user : User) (newId : Nat) (body : CreateBody)
    (store : Store) (recipients : List Recipient) (hrec : body.recipients = some recipients)
    (hname : requiredString body.name = true) (hmsg : requiredString body.message = true)
    (hsave : env.saveFault 0 = none) :
    ∃ c : Campaign,
      createHandler env user newId body store = (.json 201 c, store ++ [c]) ∧
      c.recipients = recipients ∧ c.totalRecipients = recipients.length ∧
      c.status = .draft ∧ c.successCount = 0 ∧ c.failureCount = 0 ∧ c.results = [] ∧
      c.name = body.name ∧ c.message = body.message ∧ c.userId = user.id ∧
      (body.delay = none → c.delay = 3000) := by
  have hv : validate (newCampaign user newId body recipients) = none := by
    unfold validate newCampaign
    simp [hname, hmsg]
  refine ⟨newCampaign user newId body recipients, ?_, rfl, rfl, rfl, rfl, rfl, rfl, rfl, rfl,
    rfl, ?_⟩
  · unfold createHandler saveNew
    rw [hrec]
    dsimp only
    rw [hv, hsave]
  · intro hd
    unfold newCampaign delayOrDefault
    rw [hd]

/-- Witness of C25: a create request for two recipients that gives no delay. -/
theorem create_stores_request_witness :
    (noDelayBody.recipients = some sampleCampaign.recipients ∧
      requiredString noDelayBody.name = true ∧ requiredString noDelayBody.message = true ∧
      acceptingEnv.saveFault 0 = none) ∧
    ∃ c : Campaign,
      createHandler acceptingEnv sampleUser 9 noDelayBody [] = (.json 201 c, [] ++ [c]) ∧
      c.recipients = sampleCampaign.recipients ∧
      c.totalRecipients = sampleCampaign.recipients.length ∧
      c.status = .draft ∧ c.successCount = 0 ∧ c.failureCount = 0 ∧ c.results = [] ∧
      c.name = noDelayBody.name ∧ c.message = noDelayBody.message ∧
      c.userId = sampleUser.id ∧
      (noDelayBody.delay = none → c.delay = 3000) :=
  ⟨⟨by decide, by decide, by decide, rfl⟩,
    create_stores_request acceptingEnv sampleUser 9 noDelayBody [] sampleCampaign.recipients
      (by decide) (by decide) (by decide) rfl⟩

/-! ## Idempotence of the phone normalisation -/

theorem removeFirst_length_le (pat s : List Char) : (removeFirst pat s).length ≤ s.length := by
  induction s with
  | nil => exact Nat.le_refl _
  | cons c cs ih =>
    unfold removeFirst
    split
    · rw [List.length_drop]
      exact Nat.sub_le _ _
    · simp only [List.length_cons]
      omega

theorem removeFirst_length_lt (pat s : List Char) (hpat : 0 < pat.length)
    (h : includesChars pat s = true) : (removeFirst pat s).length < s.length := by
  induction s with
  | nil =>
    cases pat with
    | nil => exact absurd hpat (by decide)
    | cons a as => simp [includesChars, List.isPrefixOf] at h
  | cons c cs ih =>
    unfold removeFirst
    split
    · rw [List.length_drop]
      simp only [List.length_cons]
      omega
    · rename_i hnot
      simp only [includesChars, Bool.or_eq_true] at h
      rcases h with h | h
      · exact absurd h hnot
      · have := ih h
        simp only [List.length_cons]
        omega

theorem normalizePhone_toList (p : String) :
    (normalizePhone p).toList =
      removeFirst "@g.us".toList (removeFirst "@c.us".toList p.toList) := rfl

theorem normalizePhone_eq_self_iff (q : String) :
    normalizePhone q = q ↔ (includes q "@c.us" = false ∧ includes q "@g.us" = false) := by
  constructor
  · intro h
    have hl : (removeFirst "@g.us".toList (removeFirst "@c.us".toList q.toList)).length =
        q.toList.length := by
      rw [← normalizePhone_toList, h]
    have h1 := removeFirst_length_le "@c.us".toList q.toList
    have h2 := removeFirst_length_le "@g.us".toList (removeFirst "@c.us".toList q.toList)
    have hc : includes q "@c.us" = false := by
      cases hi : includes q "@c.us" with
      | false => rfl
      | true =>
        have := removeFirst_length_lt "@c.us".toList q.toList (by decide) hi
        omega
    have hq : removeFirst "@c.us".toList q.toList = q.toList :=
      removeFirst_of_not_includes _ _ hc
    refine ⟨hc, ?_⟩
    cases hi : includes q "@g.us" with
    | false => rfl
    | true =>
      have := removeFirst_length_lt "@g.us".toList q.toList (by decide) hi
      rw [hq] at hl
      omega
  · intro ⟨hc, hg⟩
    have hq : removeFirst "@c.us".toList q.toList = q.toList :=
      removeFirst_of_not_includes _ _ hc
    have hq2 : removeFirst "@g.us".toList q.toList = q.toList :=
      removeFirst_of_not_includes _ _ hg
    apply String.ext
    change removeFirst "@g.us".toList (removeFirst "@c.us".toList q.toList) = q.toList
    rw [hq, hq2]

/-- C26, counterexample: the phone `1@c.us@c.us` is normalised to `1@c.us`, which still
contains `@c.us` and is normalised to `1`; the gateway request for that phone carries
`1@c.us`. -/
theorem normalizePhone_not_idempotent :
    normalizePhone "1@c.us@c.us" = "1@c.us" ∧
    normalizePhone (normalizePhone "1@c.us@c.us") = "1" ∧
    includes (normalizePhone "1@c.us@c.us") "@c.us" = true ∧
    (mkRequest acceptingEnv sampleUser sampleCampaign
      { phone := some "1@c.us@c.us", name := none, isGroup := none } "1@c.us@c.us").phone =
      "1@c.us" := by
  decide

/-- C26, amended: the phone normalisation of the send operation removes the first `@c.us`
and then the first `@g.us` only.  Normalising the normalised phone gives the normalised
phone again exactly when the normalised phone contains neither `@c.us` nor `@g.us`.  That
is so for every phone that contains neither of them, which is left unchanged, and for every
phone that is `p` followed by `@c.us` or `@g.us` where `p` contains neither of them. -/
theorem normalizePhone_idempotent_iff (phone : String) :
    (normalizePhone (normalizePhone phone) = normalizePhone phone ↔
      (includes (normalizePhone phone) "@c.us" = false ∧
        includes (normalizePhone phone) "@g.us" = false)) ∧
    (includes phone "@c.us" = false → includes phone "@g.us" = false →
      normalizePhone phone = phone ∧
      normalizePhone (normalizePhone phone) = normalizePhone phone) ∧
    (∀ p suffix : String, phone = p ++ suffix → (suffix = "@c.us" ∨ suffix = "@g.us") →
      includes p "@c.us" = false → includes p "@g.us" = false →
      normalizePhone phone = p ∧
      normalizePhone (normalizePhone phone) = normalizePhone phone) := by
  refine ⟨normalizePhone_eq_self_iff (normalizePhone phone), ?_, ?_⟩
  · intro hc hg
    have h := (normalizePhone_eq_self_iff phone).mpr ⟨hc, hg⟩
    exact ⟨h, by rw [h, h]⟩
  · intro p suffix hphone hs hc hg
    have h := normalizePhone_strips_marker p suffix hs hc hg
    have hp := (normalizePhone_eq_self_iff p).mpr ⟨hc, hg⟩
    rw [hphone, h]
    exact ⟨rfl, hp⟩

/-- Witness of C26 (amended): the phone `222@g.us`. -/
theorem normalizePhone_idempotent_iff_witness :
    (("222@g.us" : String) = "222" ++ "@g.us" ∧
      (("@g.us" : String) = "@c.us" ∨ ("@g.us" : String) = "@g.us") ∧
      includes "222" "@c.us" = false ∧ includes "222" "@g.us" = false) ∧
    normalizePhone "222@g.us" = "222" ∧
    normalizePhone (normalizePhone "222@g.us") = normalizePhone "222@g.us" :=
  ⟨⟨by decide, by decide, by decide, by decide⟩,
    (normalizePhone_idempotent_iff "222@g.us").2.2 "222" "@g.us" (by decide) (by decide)
      (by decide) (by decide)⟩

/-! ## `parseRecipients` -/

theorem trimChars_eq_nil_iff (l : List Char) :
    trimChars l = [] ↔ ∀ c ∈ l, isTrimChar c = true := by
  unfold trimChars
  rw [List.reverse_eq_nil_iff, List.dropWhile_eq_nil_iff]
  constructor
  · intro h
    have hnil : l.dropWhile isTrimChar = [] := by
      cases hd : l.dropWhile isTrimChar with
      | nil => rfl
      | cons x rest =>
        have hx : isTrimChar x = true := h x (by rw [hd]; simp)
        have hne : l.dropWhile isTrimChar ≠ [] := by rw [hd]; exact List.cons_ne_nil _ _
        have hhead := List.head_dropWhile_not isTrimChar l hne
        simp only [hd, List.head_cons] at hhead
        rw [hx] at hhead
        cases hhead
    exact List.dropWhile_eq_nil_iff.mp hnil
  · intro h x hx
    rw [List.mem_reverse] at hx
    have hnil : l.dropWhile isTrimChar = [] := List.dropWhile_eq_nil_iff.mpr h
    rw [hnil] at hx
    cases hx

theorem mem_of_mem_splitLineChars (l : List Char) :
    ∀ line ∈ splitLineChars l, ∀ c ∈ line, c ∈ l := by
  induction l with
  | nil =>
    intro line hline c hc
    simp only [splitLineChars, List.mem_singleton] at hline
    rw [hline] at hc
    cases hc
  | cons a as ih =>
    intro line hline c hc
    unfold splitLineChars at hline
    split at hline
    · rcases List.mem_cons.mp hline with h | h
      · rw [h] at hc
        cases hc
      · exact List.mem_cons_of_mem _ (ih line h c hc)
    · split at hline
      · simp only [List.mem_singleton] at hline
        rw [hline] at hc
        simp only [List.mem_singleton] at hc
        rw [hc]
        exact List.mem_cons_self _ _
      · rename_i first rest heq
        rcases List.mem_cons.mp hline with h | h
        · rw [h] at hc
          rcases List.mem_cons.mp hc with h' | h'
          · rw [h']
            exact List.mem_cons_self _ _
          · exact List.mem_cons_of_mem _ (ih first (by rw [heq]; exact List.mem_cons_self _ _) c h')
        · exact List.mem_cons_of_mem _
            (ih line (by rw [heq]; exact List.mem_cons_of_mem _ h) c hc)

theorem truthyString_jsTrim_eq_false_iff (s : String) :
    truthyString (jsTrim s) = false ↔ ∀ c ∈ s.toList, isTrimChar c = true := by
  rw [← trimChars_eq_nil_iff]
  unfold truthyString jsTrim
  constructor
  · intro h
    have h' : String.mk (trimChars s.toList) = "" := by simpa using h
    exact congrArg String.toList h'
  · intro h
    rw [h]
    rfl

theorem nonBlankLines_of_blank (recipients : String)
    (h : truthyString (jsTrim recipients) = false) : nonBlankLines recipients = [] := by
  unfold nonBlankLines splitLines
  rw [List.filter_eq_nil_iff]
  intro line hline
  rw [List.mem_map] at hline
  obtain ⟨chars, hchars, rfl⟩ := hline
  have hall := (truthyString_jsTrim_eq_false_iff recipients).mp h
  have : truthyString (jsTrim (String.mk chars)) = false := by
    rw [truthyString_jsTrim_eq_false_iff]
    intro c hc
    exact hall c (mem_of_mem_splitLineChars recipients.toList chars hchars c hc)
  rw [this]
  decide

theorem foldl_pushLine (lines : List String) (acc : List Recipient)
    (h : ∀ line ∈ lines, truthyString (jsTrim line) = true) :
    lines.foldl pushLine acc = acc ++ lines.map lineRecipient := by
  induction lines generalizing acc with
  | nil => simp
  | cons line rest ih =>
    have hline := h line (List.mem_cons_self _ _)
    have hrest : ∀ l ∈ rest, truthyString (jsTrim l) = true :=
      fun l hl => h l (List.mem_cons_of_mem _ hl)
    rw [List.foldl_cons, ih _ hrest]
    unfold pushLine lineRecipient
    simp [hline]

theorem foldl_pushContact (contacts : List SelectedContact) (acc : List Recipient) :
    contacts.foldl pushContact acc = acc ++ contacts.map contactRecipient := by
  induction contacts generalizing acc with
  | nil => simp
  | cons contact rest ih =>
    rw [List.foldl_cons, ih]
    unfold pushContact contactRecipient
    simp

/-- C27: for every manual-recipients text and every list of selected contacts,
`parseRecipients` returns first one recipient per line of the text that is not blank after
trimming, in line order, with the trimmed line as phone, an empty name and the group flag
set exactly when the trimmed line contains `@g.us`, then one recipient per selected contact,
in selection order.  Its length is the number of non-blank lines plus the number of selected
contacts, and it is empty exactly when there is no non-blank line and no selected
contact. -/
theorem parseRecipients_lines_then_contacts (recipients : String)
    (selectedContacts : List SelectedContact) :
    parseRecipients recipients selectedContacts =
      (nonBlankLines recipients).map lineRecipient ++
        selectedContacts.map contactRecipient ∧
    (∀ line ∈ nonBlankLines recipients,
      line ∈ splitLines recipients ∧ jsTrim line ≠ "" ∧
      (lineRecipient line).phone = some (jsTrim line) ∧
      (lineRecipient line).name = some "" ∧
      ((lineRecipient line).isGroup = some true ↔ includes (jsTrim line) "@g.us" = true)) ∧
    (parseRecipients recipients selectedContacts).length =
      (nonBlankLines recipients).length + selectedContacts.length ∧
    (parseRecipients recipients selectedContacts = [] ↔
      (nonBlankLines recipients = [] ∧ selectedContacts = [])) := by
  have hmain : parseRecipients recipients selectedContacts =
      (nonBlankLines recipients).map lineRecipient ++
        selectedContacts.map contactRecipient := by
    unfold parseRecipients
    dsimp only
    rw [foldl_pushContact]
    congr 1
    cases hb : truthyString (jsTrim recipients) with
    | false =>
      rw [nonBlankLines_of_blank recipients hb]
      rfl
    | true =>
      simp only [if_true]
      rw [foldl_pushLine _ _ (fun line hline => (List.mem_filter.mp hline).2)]
      rfl
  refine ⟨hmain, ?_, ?_, ?_⟩
  · intro line hline
    have hmem := List.mem_filter.mp hline
    refine ⟨hmem.1, ?_, rfl, rfl, ?_⟩
    · have h := hmem.2
      unfold truthyString at h
      simpa using h
    · unfold lineRecipient
      simp
  · rw [hmain, List.length_append, List.length_map, List.length_map]
  · rw [hmain]
    simp

/-- An evaluation of `parseRecipients`: three lines, one of them blank, and one selected
group. -/
theorem parseRecipients_example :
    parseRecipients " 111@c.us \n   \n222@g.us"
        [{ id := some "333@g.us", name := "Team", isGroup := true }] =
      [{ phone := some "111@c.us", name := some "", isGroup := some false },
       { phone := some "222@g.us", name := some "", isGroup := some true },
       { phone := some "333@g.us", name := some "Team", isGroup := some true }] := by
  decide

/-! ## The fetch-group-members handler -/

theorem getCount_append (a b : List FetchEvent) : getCount (a ++ b) = getCount a + getCount b := by
  induction a with
  | nil => simp [getCount]
  | cons e rest ih =>
    have h : getCount (e :: (rest ++ b)) = getCount (e :: rest) + getCount b := by
      cases e
      all_goals simp only [getCount, ih]
      all_goals omega
    exact h

theorem fetchMembers_getCount (env : FetchEnv) (user : User) (i : Nat) (groupId : String) :
    getCount (fetchMembers env user i groupId).1 = 1 := by
  unfold fetchMembers
  cases env.getMembers i groupId <;> rfl

theorem fetchStep_spec (env : FetchEnv) (user : User) (i : Nat) (groupId : String)
    (st : FetchState) :
    (∃ r : GroupResult, (fetchStep env user i groupId st).results = st.results ++ [r] ∧
      r.groupId = groupId ∧ (r.status = "success" ∨ r.status = "failed")) ∧
    getCount (fetchStep env user i groupId st).events = getCount st.events + 1 := by
  have hget := fetchMembers_getCount env user i groupId
  unfold fetchStep
  rcases hf : fetchMembers env user i groupId with ⟨events, _ | data⟩
  · rw [hf] at hget
    dsimp only at hget
    refine ⟨⟨_, rfl, rfl, Or.inr rfl⟩, ?_⟩
    simp only [fetchFailed, getCount_append]
    omega
  · rw [hf] at hget
    dsimp only at hget ⊢
    cases processedMembers (extractMembers data) with
    | error e =>
      refine ⟨⟨_, rfl, rfl, Or.inr rfl⟩, ?_⟩
      simp only [fetchFailed, getCount_append]
      omega
    | ok kept =>
      dsimp only
      cases env.updateFault i with
      | some e =>
        refine ⟨⟨_, rfl, rfl, Or.inr rfl⟩, ?_⟩
        simp only [fetchFailed, getCount_append, getCount]
        omega
      | none =>
        refine ⟨⟨_, rfl, rfl, Or.inl rfl⟩, ?_⟩
        simp only [getCount_append, getCount]
        omega

theorem fetchLoop_spec (env : FetchEnv) (user : User) (i : Nat) (groupIds : List String)
    (st : FetchState) :
    ∃ added : List GroupResult,
      (fetchLoop env user i groupIds st).results = st.results ++ added ∧
      added.map (fun r => r.groupId) = groupIds ∧
      (∀ r ∈ added, r.status = "success" ∨ r.status = "failed") ∧
      getCount (fetchLoop env user i groupIds st).events = getCount st.events + groupIds.length := by
  induction groupIds generalizing i st with
  | nil =>
    refine ⟨[], ?_, rfl, ?_, rfl⟩
    · rw [List.append_nil]
      rfl
    · intro r hr
      simp at hr
  | cons g rest ih =>
    obtain ⟨⟨r, hr, hg, hstatus⟩, hcount⟩ := fetchStep_spec env user i g st
    obtain ⟨added, hres, hids, hst, hc⟩ := ih (i + 1) (fetchStep env user i g st)
    refine ⟨r :: added, ?_, ?_, ?_, ?_⟩
    · rw [fetchLoop, hres, hr]
      simp
    · simp [hg, hids]
    · intro x hx
      rcases List.mem_cons.mp hx with h | h
      · rw [h]
        exact hstatus
      · exact hst x h
    · rw [fetchLoop, hc, hcount, List.length_cons]
      omega

/-- C28: for every non-empty list of group ids and every gateway behaviour, when the update
of `lastSyncAt` after the loop goes through, the fetch-group-members operation returns a
results list with exactly one entry per group id, in the order given, each with that group
id and status `success` or `failed`; one `get` call is made for every group, whatever
happened to the groups before it.  An absent, non-list or empty `groupIds` is rejected with
400 `Group IDs required`, with no gateway call and the store as it was. -/
theorem fetch_results_one_per_group (env : FetchEnv) (user : User) (store : DataStore) :
    (∀ groupIds : List String, groupIds ≠ [] → env.syncFault = none →
      ∃ results message,
        (fetchGroupMembers env user (some groupIds) store).response = .results results message ∧
        results.map (fun r => r.groupId) = groupIds ∧
        (∀ r ∈ results, r.status = "success" ∨ r.status = "failed") ∧
        getCount (fetchGroupMembers env user (some groupIds) store).events = groupIds.length) ∧
    (∀ groupIds : Option (List String), (groupIds = none ∨ groupIds = some []) →
      (fetchGroupMembers env user groupIds store).response =
        .failure 400 "Group IDs required" none ∧
      (fetchGroupMembers env user groupIds store).events = [] ∧
      (fetchGroupMembers env user groupIds store).store = store) := by
  constructor
  · intro groupIds hne hsync
    cases groupIds with
    | nil => exact absurd rfl hne
    | cons first rest =>
      obtain ⟨added, hres, hids, hst, hc⟩ := fetchLoop_spec env user 0 (first :: rest)
        { store := store, results := [], events := [] }
      refine ⟨added, "Processed " ++ toString (first :: rest).length ++ " groups", ?_, hids,
        hst, ?_⟩
      · unfold fetchGroupMembers
        simp only [hsync, hres, List.nil_append]
      · unfold fetchGroupMembers
        simp only [hsync, hc, getCount, Nat.zero_add]
  · intro groupIds h
    rcases h with h | h <;> subst h <;> exact ⟨rfl, rfl, rfl⟩

/-- Witness of C28: two groups, the first one fails on both calls, the second one is
fetched. -/
theorem fetch_results_one_per_group_witness :
    ((["g0@g.us", "g1@g.us"] : List String) ≠ [] ∧ sampleFetchEnv.syncFault = none) ∧
    (∃ results message,
      (fetchGroupMembers sampleFetchEnv sampleUser (some ["g0@g.us", "g1@g.us"])
        sampleData).response = .results results message ∧
      results.map (fun r => r.groupId) = ["g0@g.us", "g1@g.us"] ∧
      (∀ r ∈ results, r.status = "success" ∨ r.status = "failed") ∧
      getCount (fetchGroupMembers sampleFetchEnv sampleUser (some ["g0@g.us", "g1@g.us"])
        sampleData).events = (["g0@g.us", "g1@g.us"] : List String).length) ∧
    (fetchGroupMembers sampleFetchEnv sampleUser (some ["g0@g.us", "g1@g.us"])
      sampleData).response =
      .results
        [{ groupId := "g0@g.us", memberCount := none,
           error := some "Request failed with status code 404", status := "failed" },
         { groupId := "g1@g.us", memberCount := some 2, error := none, status := "success" }]
        "Processed 2 groups" :=
  ⟨⟨by decide, rfl⟩,
    (fetch_results_one_per_group sampleFetchEnv sampleUser sampleData).1 ["g0@g.us", "g1@g.us"]
      (by decide) rfl,
    by decide⟩
theorem keepMember_true (m : ProcessedMember) (h : keepMember m = .ok true) :
    idIncludes m.id "@c.us" ∨ idIncludes m.id "@lid" := by
  unfold keepMember at h
  cases hid : m.id with
  | str s =>
    rw [hid] at h
    simp only [Except.ok.injEq, Bool.and_eq_true, Bool.or_eq_true] at h
    rcases h.2 with hc | hl
    · exact Or.inl (Or.inl ⟨s, rfl, hc⟩)
    · exact Or.inr (Or.inl ⟨s, rfl, hl⟩)
  | arr items =>
    rw [hid] at h
    simp only [Except.ok.injEq, Bool.or_eq_true] at h
    rcases h with hc | hl
    · exact Or.inl (Or.inr ⟨items, rfl, hc⟩)
    · exact Or.inr (Or.inr ⟨items, rfl, hl⟩)
  | null => rw [hid] at h; simp [Json.truthy] at h
  | bool b => rw [hid] at h; cases b <;> simp [Json.truthy] at h
  | num n =>
    rw [hid] at h
    by_cases hn : n = 0 <;> simp [Json.truthy, hn] at h
  | obj fields => rw [hid] at h; simp [Json.truthy] at h

theorem filterMembers_ok (mapped kept : List ProcessedMember)
    (h : filterMembers mapped = .ok kept) :
    kept.Sublist mapped ∧ ∀ m ∈ kept, keepMember m = .ok true := by
  induction mapped generalizing kept with
  | nil =>
    simp only [filterMembers, Except.ok.injEq] at h
    subst h
    exact ⟨List.Sublist.refl _, fun m hm => by simp at hm⟩
  | cons a rest ih =>
    unfold filterMembers at h
    cases hk : keepMember a with
    | error e => rw [hk] at h; cases h
    | ok keep =>
      rw [hk] at h
      dsimp only at h
      cases hr : filterMembers rest with
      | error e => rw [hr] at h; cases h
      | ok others =>
        rw [hr] at h
        simp only [Except.ok.injEq] at h
        obtain ⟨hsub, hall⟩ := ih others hr
        cases keep with
        | true =>
          simp only [if_true] at h
          subst h
          refine ⟨hsub.cons₂ a, ?_⟩
          intro m hm
          rcases List.mem_cons.mp hm with h' | h'
          · rw [h']
            exact hk
          · exact hall m h'
        | false =>
          simp only [Bool.false_eq_true, if_false] at h
          subst h
          exact ⟨hsub.cons a, hall⟩

theorem mapMembers_ok (members : List Json) (mapped : List ProcessedMember)
    (h : mapMembers members = .ok mapped) :
    List.Forall₂ (fun m pm => processMember m = .ok pm) members mapped := by
  induction members generalizing mapped with
  | nil =>
    simp only [mapMembers, Except.ok.injEq] at h
    subst h
    exact List.Forall₂.nil
  | cons a rest ih =>
    unfold mapMembers at h
    cases hp : processMember a with
    | error e => rw [hp] at h; cases h
    | ok first =>
      rw [hp] at h
      dsimp only at h
      cases hr : mapMembers rest with
      | error e => rw [hr] at h; cases h
      | ok others =>
        rw [hr] at h
        simp only [Except.ok.injEq] at h
        subst h
        exact List.Forall₂.cons hp (ih others hr)

theorem setGroupMembers_find (groupId : String) (kept : List ProcessedMember)
    (groups : List StoredGroup) :
    ((setGroupMembers groupId kept groups).find? (fun g => g.id = some groupId)).map
        (fun g => g.memberCount) =
      (groups.find? (fun g => g.id = some groupId)).map (fun _ => some kept.length) := by
  induction groups with
  | nil => rfl
  | cons g gs ih =>
    unfold setGroupMembers
    by_cases hg : g.id = some groupId
    · simp [hg]
    · simp only [hg, if_false, List.find?_cons, decide_False]
      exact ih

theorem setGroupMembers_hasGroup (groupId : String) (kept : List ProcessedMember)
    (groups : List StoredGroup) :
    (setGroupMembers groupId kept groups).any (fun g => g.id = some groupId) =
      groups.any (fun g => g.id = some groupId) := by
  induction groups with
  | nil => rfl
  | cons g gs ih =>
    unfold setGroupMembers
    by_cases hg : g.id = some groupId
    · simp [hg]
    · simp only [hg, if_false, List.any_cons, decide_False, Bool.false_or]
      exact ih

theorem storedMemberCount_update (userId : Nat) (groupId : String)
    (kept : List ProcessedMember) (store : DataStore) :
    storedMemberCount userId groupId (updateGroupMembers userId groupId kept store) =
      (storedMemberCount userId groupId store).map (fun _ => some kept.length) := by
  induction store with
  | nil => rfl
  | cons doc docs ih =>
    unfold updateGroupMembers
    by_cases hd : doc.userId = userId ∧ hasGroup groupId doc = true
    · rw [if_pos hd]
      have hd2 : doc.userId = userId ∧
          hasGroup groupId { doc with groups := setGroupMembers groupId kept doc.groups } = true := by
        refine ⟨hd.1, ?_⟩
        unfold hasGroup at hd ⊢
        rw [setGroupMembers_hasGroup]
        exact hd.2
      unfold storedMemberCount
      rw [if_pos hd2, if_pos hd]
      have := setGroupMembers_find groupId kept doc.groups
      rw [this, Option.map_map]
      rfl
    · rw [if_neg hd]
      unfold storedMemberCount
      rw [if_neg hd, if_neg hd]
      exact ih

/-- C29: for every list of raw group members the gateway returns for a group, when the
members are processed without an error and the update of the store goes through: every
member kept has an id that contains `@c.us` or `@lid` (as a substring of a string id, or,
since the filter calls `includes`, as an element of an array id); the kept members are a
sublist, in the same relative order, of the raw members after the mapping; the number of
kept members is at most the number of raw members; and the `memberCount` reported in the
results entry and stored for the group (when the user has that group) is the number of
kept members. -/
theorem kept_members_have_marker (env : FetchEnv) (user : User) (i : Nat) (groupId : String)
    (st : FetchState) (data : Json) (members : List Json) (kept : List ProcessedMember)
    (hfetch : (fetchMembers env user i groupId).2 = .ok data)
    (hraw : extractMembers data = .arr members)
    (hkept : processedMembers (.arr members) = .ok kept)
    (hupdate : env.updateFault i = none) :
    (∀ m ∈ kept, idIncludes m.id "@c.us" ∨ idIncludes m.id "@lid") ∧
    (∃ mapped, List.Forall₂ (fun m pm => processMember m = .ok pm) members mapped ∧
      kept.Sublist mapped) ∧
    kept.length ≤ members.length ∧
    (fetchStep env user i groupId st).results = st.results ++
      [{ groupId := groupId, memberCount := some kept.length, error := none,
         status := "success" }] ∧
    storedMemberCount user.id groupId (fetchStep env user i groupId st).store =
      (storedMemberCount user.id groupId st.store).map (fun _ => some kept.length) := by
  unfold processedMembers at hkept
  dsimp only at hkept
  cases hm : mapMembers members with
  | error e => rw [hm] at hkept; cases hkept
  | ok mapped =>
    rw [hm] at hkept
    dsimp only at hkept
    obtain ⟨hsub, hall⟩ := filterMembers_ok mapped kept hkept
    have hforall := mapMembers_ok members mapped hm
    have hstep : fetchStep env user i groupId st =
        { store := updateGroupMembers user.id groupId kept st.store
          results := st.results ++
            [{ groupId := groupId, memberCount := some kept.length, error := none,
               status := "success" }]
          events := st.events ++ (fetchMembers env user i groupId).1 ++
            [.update groupId, .pause 1000] } := by
      unfold fetchStep
      rcases hf : fetchMembers env user i groupId with ⟨events, outcome⟩
      rw [hf] at hfetch
      dsimp only at hfetch
      subst hfetch
      dsimp only
      have hp : processedMembers (extractMembers data) = .ok kept := by
        rw [hraw]
        unfold processedMembers
        dsimp only
        rw [hm]
        exact hkept
      rw [hp]
      dsimp only
      rw [hupdate]
    refine ⟨fun m hm' => keepMember_true m (hall m hm'), ⟨mapped, hforall, hsub⟩, ?_, ?_, ?_⟩
    · rw [hforall.length_eq]
      exact hsub.length_le
    · rw [hstep]
    · rw [hstep]
      exact storedMemberCount_update user.id groupId kept st.store
/-- Witness of C29: three raw members for the group `g1@g.us`, of which the entry of the
group itself is dropped; two members are kept, reported and stored. -/
theorem kept_members_have_marker_witness :
    ((fetchMembers sampleFetchEnv sampleUser 0 "g1@g.us").2 =
        .ok (.obj [("response", .arr [annMember, groupEntry, lidMember])]) ∧
      extractMembers (.obj [("response", .arr [annMember, groupEntry, lidMember])]) =
        .arr [annMember, groupEntry, lidMember] ∧
      processedMembers (.arr [annMember, groupEntry, lidMember]) =
        .ok [{ id := .str "111@c.us", phone := .str "111", name := .str "Ann" },
             { id := .str "222@lid", phone := .str "222", name := .str "222" }] ∧
      sampleFetchEnv.updateFault 0 = none) ∧
    ((∀ m ∈ ([{ id := .str "111@c.us", phone := .str "111", name := .str "Ann" },
              { id := .str "222@lid", phone := .str "222", name := .str "222" }] :
              List ProcessedMember),
        idIncludes m.id "@c.us" ∨ idIncludes m.id "@lid") ∧
      (∃ mapped,
        List.Forall₂ (fun m pm => processMember m = .ok pm)
          [annMember, groupEntry, lidMember] mapped ∧
        ([{ id := .str "111@c.us", phone := .str "111", name := .str "Ann" },
          { id := .str "222@lid", phone := .str "222", name := .str "222" }] :
          List ProcessedMember).Sublist mapped) ∧
      ([{ id := .str "111@c.us", phone := .str "111", name := .str "Ann" },
        { id := .str "222@lid", phone := .str "222", name := .str "222" }] :
        List ProcessedMember).length ≤ [annMember, groupEntry, lidMember].length ∧
      (fetchStep sampleFetchEnv sampleUser 0 "g1@g.us"
          { store := sampleData, results := [], events := [] }).results =
        [] ++ [{ groupId := "g1@g.us",
                 memberCount := some ([{ id := .str "111@c.us", phone := .str "111",
                                         name := .str "Ann" },
                                       { id := .str "222@lid", phone := .str "222",
                                         name := .str "222" }] : List ProcessedMember).length,
                 error := none, status := "success" }] ∧
      storedMemberCount sampleUser.id "g1@g.us"
          (fetchStep sampleFetchEnv sampleUser 0 "g1@g.us"
            { store := sampleData, results := [], events := [] }).store =
        (storedMemberCount sampleUser.id "g1@g.us" sampleData).map
          (fun _ => some ([{ id := .str "111@c.us", phone := .str "111", name := .str "Ann" },
                           { id := .str "222@lid", phone := .str "222", name := .str "222" }] :
                           List ProcessedMember).length)) ∧
    storedMemberCount sampleUser.id "g1@g.us"
        (fetchGroupMembers sampleFetchEnv sampleUser (some ["g1@g.us"]) sampleData).store =
      some (some 2) :=
  ⟨⟨rfl, rfl, rfl, rfl⟩,
    kept_members_have_marker sampleFetchEnv sampleUser 0 "g1@g.us"
      { store := sampleData, results := [], events := [] }
      (.obj [("response", .arr [annMember, groupEntry, lidMember])])
      [annMember, groupEntry, lidMember]
      [{ id := .str "111@c.us", phone := .str "111", name := .str "Ann" },
       { id := .str "222@lid", phone := .str "222", name := .str "222" }]
      rfl rfl rfl rfl,
    by decide⟩

end WhatsCampaigns
